import Mathlib

/-!
Verification development for the GlobaLeaks tenant import/export subsystem
(backend/globaleaks/utils/import_export.py) and the submission handlers
(globaleaks/handlers/submission.py).

The Python code is shallowly embedded: SQLAlchemy tables become lists of
records, sessions become explicit database values, exceptions become an
error type threaded through Except, and the filesystem side effects of the
packager and unpacker become explicit state plus an event trace.  The
tables modelled are the ones exercised by the verified properties; each of
the remaining entity types in DIRECT_TID_REFERENCES / IMPORT_ORDER is
collected and replayed by exactly the same two code paths (filter by
tenant column, session.merge in a fixed order) as the modelled ones.
-/

namespace ImportExport

/-- Errors raised by the Python code paths under study.  The constructors
name the Python exception class actually raised.  The `entityNotFound`
constructor models the error taxonomy of the specification (EntityNotFound)
and is never produced by the code; it exists so that theorems can compare
the code's actual failure against the specified one. -/
inductive PyError where
  | attributeError
  | fileNotFoundError
  | recursionError
  | operationalError
  | readError
  | entityNotFound
  deriving DecidableEq

/-- models.Tenant: primary key `id` (None while detached / before flush)
and a label; all other columns are irrelevant to the claims. -/
structure TenantRow where
  id : Option Int
  label : String
  deriving DecidableEq

/-- models.Context: directly tenant-scoped (tid column). -/
structure ContextRow where
  id : Nat
  tid : Int
  payload : String
  deriving DecidableEq

/-- models.Field: directly tenant-scoped. -/
structure FieldRow where
  id : Nat
  tid : Int
  payload : String
  deriving DecidableEq

/-- models.User: directly tenant-scoped. -/
structure UserRow where
  id : Nat
  tid : Int
  payload : String
  deriving DecidableEq

/-- models.Questionnaire: directly tenant-scoped. -/
structure QuestionaireRow where
  id : Nat
  tid : Int
  payload : String
  deriving DecidableEq

/-- models.SubmissionStatus: directly tenant-scoped. -/
structure SubmissionStatusRow where
  id : Nat
  tid : Int
  payload : String
  deriving DecidableEq

/-- models.InternalTip: directly tenant-scoped; also carries the
questionnaire schema hash used to chase ArchivedSchema rows. -/
structure InternalTipRow where
  id : Nat
  tid : Int
  questionnaire_hash : Nat
  payload : String
  deriving DecidableEq

/-- models.ArchivedSchema: keyed by `hash`, no tenant column. -/
structure ArchivedSchemaRow where
  hash : Nat
  payload : String
  deriving DecidableEq

/-- models.FieldAnswer: carries the circular foreign key
`fieldanswergroup_id` that the exporter nulls and the merge engine
patches back. -/
structure FieldAnswerRow where
  id : Nat
  internaltip_id : Nat
  fieldanswergroup_id : Option Nat
  payload : String
  deriving DecidableEq

/-- models.FieldAnswerGroup. -/
structure FieldAnswerGroupRow where
  id : Nat
  fieldanswer_id : Nat
  payload : String
  deriving DecidableEq

/-- models.InternalFile. -/
structure InternalFileRow where
  id : Nat
  internaltip_id : Nat
  filename : String
  payload : String
  deriving DecidableEq

/-- models.ReceiverFile: file-owning row with a `status` column
(for example "reference" or "encrypted") and a stored filename. -/
structure ReceiverFileRow where
  id : Nat
  internalfile_id : Nat
  filename : String
  status : String
  payload : String
  deriving DecidableEq

/-- models.ReceiverTip. -/
structure ReceiverTipRow where
  id : Nat
  internaltip_id : Nat
  payload : String
  deriving DecidableEq

/-- models.Message: has its own primary id and a receivertip_id column;
the collector filters it by `id` (see collect_message below). -/
structure MessageRow where
  id : Nat
  receivertip_id : Nat
  payload : String
  deriving DecidableEq

/-- models.WhistleblowerFile: file-owning row without a `status` column. -/
structure WhistleblowerFileRow where
  id : Nat
  receivertip_id : Nat
  filename : String
  payload : String
  deriving DecidableEq

/-- A database: one list per modelled table, plus the autoincrement
counter the engine uses for the tenant primary key. -/
structure DB where
  tenantNextId : Int
  tenant : List TenantRow
  context : List ContextRow
  field : List FieldRow
  user : List UserRow
  questionaire : List QuestionaireRow
  submissionstatus : List SubmissionStatusRow
  internaltip : List InternalTipRow
  archivedschema : List ArchivedSchemaRow
  fieldanswer : List FieldAnswerRow
  fieldanswergroup : List FieldAnswerGroupRow
  internalfile : List InternalFileRow
  receiverfile : List ReceiverFileRow
  receivertip : List ReceiverTipRow
  message : List MessageRow
  whistleblowerfile : List WhistleblowerFileRow
  deriving DecidableEq

/-- tenant_data: the detached snapshot built by collect_all_tenant_data,
keyed by entity-type name in the source; here one field per key. -/
structure TenantData where
  tenant : TenantRow
  context : List ContextRow
  field : List FieldRow
  user : List UserRow
  questionaire : List QuestionaireRow
  submissionstatus : List SubmissionStatusRow
  internaltip : List InternalTipRow
  archivedschema : List ArchivedSchemaRow
  fieldanswer : List FieldAnswerRow
  fieldanswer_nulled : List FieldAnswerRow
  fieldanswergroup : List FieldAnswerGroupRow
  internalfile : List InternalFileRow
  receiverfile : List ReceiverFileRow
  receivertip : List ReceiverTipRow
  message : List MessageRow
  whistleblowerfile : List WhistleblowerFileRow
  deriving DecidableEq

/-- EXPORTED_TENANT_ID = 0: the sentinel tenant id written into a
snapshot and used inside an export database. -/
def EXPORTED_TENANT_ID : Int := 0

/-- build_id_list(dataset, column_name): the list of one column's values,
in dataset order, with no deduplication. -/
def build_id_list {ρ κ : Type} (dataset : List ρ) (column : ρ → κ) : List κ :=
  dataset.map column

/-- collect_pk_relation(session, model, pks, filter_column): one
filter_by query per key value, results appended in key order. -/
def collect_pk_relation {ρ κ : Type} [DecidableEq κ]
    (rows : List ρ) (pks : List κ) (filter_column : ρ → κ) : List ρ :=
  match pks with
  | [] => []
  | pk :: rest =>
      rows.filter (fun r => decide (filter_column r = pk))
        ++ collect_pk_relation rows rest filter_column

/-- The direct tenant query for each table in DIRECT_TID_REFERENCES:
session.query(model).filter_by(tid=tid). -/
def collect_context (db : DB) (tid : Int) : List ContextRow :=
  db.context.filter (fun r => decide (r.tid = tid))

def collect_field (db : DB) (tid : Int) : List FieldRow :=
  db.field.filter (fun r => decide (r.tid = tid))

def collect_user (db : DB) (tid : Int) : List UserRow :=
  db.user.filter (fun r => decide (r.tid = tid))

def collect_questionaire (db : DB) (tid : Int) : List QuestionaireRow :=
  db.questionaire.filter (fun r => decide (r.tid = tid))

def collect_submissionstatus (db : DB) (tid : Int) : List SubmissionStatusRow :=
  db.submissionstatus.filter (fun r => decide (r.tid = tid))

def collect_internaltip (db : DB) (tid : Int) : List InternalTipRow :=
  db.internaltip.filter (fun r => decide (r.tid = tid))

/-- context_ids = build_id_list(tenant_data['context'], 'id') -/
def context_ids (db : DB) (tid : Int) : List Nat :=
  build_id_list (collect_context db tid) (fun r => r.id)

def field_ids (db : DB) (tid : Int) : List Nat :=
  build_id_list (collect_field db tid) (fun r => r.id)

def user_ids (db : DB) (tid : Int) : List Nat :=
  build_id_list (collect_user db tid) (fun r => r.id)

def internaltip_ids (db : DB) (tid : Int) : List Nat :=
  build_id_list (collect_internaltip db tid) (fun r => r.id)

/-- questionairehash_id = build_id_list(tenant_data['internaltip'],
'questionnaire_hash'): one hash per tip, duplicates kept. -/
def questionairehash_ids (db : DB) (tid : Int) : List Nat :=
  build_id_list (collect_internaltip db tid) (fun r => r.questionnaire_hash)

def collect_archivedschema (db : DB) (tid : Int) : List ArchivedSchemaRow :=
  collect_pk_relation db.archivedschema (questionairehash_ids db tid) (fun r => r.hash)

def collect_fieldanswer (db : DB) (tid : Int) : List FieldAnswerRow :=
  collect_pk_relation db.fieldanswer (internaltip_ids db tid) (fun r => r.internaltip_id)

/-- The deep copy of the fieldanswer set with the circular foreign key
nulled out, stored under the fieldanswer_nulled key. -/
def collect_fieldanswer_nulled (db : DB) (tid : Int) : List FieldAnswerRow :=
  (collect_fieldanswer db tid).map (fun fa => { fa with fieldanswergroup_id := none })

def fieldanswer_ids (db : DB) (tid : Int) : List Nat :=
  build_id_list (collect_fieldanswer db tid) (fun r => r.id)

def collect_fieldanswergroup (db : DB) (tid : Int) : List FieldAnswerGroupRow :=
  collect_pk_relation db.fieldanswergroup (fieldanswer_ids db tid) (fun r => r.fieldanswer_id)

def collect_internalfile (db : DB) (tid : Int) : List InternalFileRow :=
  collect_pk_relation db.internalfile (internaltip_ids db tid) (fun r => r.internaltip_id)

def internalfile_ids (db : DB) (tid : Int) : List Nat :=
  build_id_list (collect_internalfile db tid) (fun r => r.id)

def collect_receiverfile (db : DB) (tid : Int) : List ReceiverFileRow :=
  collect_pk_relation db.receiverfile (internalfile_ids db tid) (fun r => r.internalfile_id)

def collect_receivertip (db : DB) (tid : Int) : List ReceiverTipRow :=
  collect_pk_relation db.receivertip (internaltip_ids db tid) (fun r => r.internaltip_id)

def receivertip_ids (db : DB) (tid : Int) : List Nat :=
  build_id_list (collect_receivertip db tid) (fun r => r.id)

/-- Message collection: the source filters models.Message with
filter_column 'id' drawn from the receivertip id set. -/
def collect_message (db : DB) (tid : Int) : List MessageRow :=
  collect_pk_relation db.message (receivertip_ids db tid) (fun r => r.id)

def collect_whistleblowerfile (db : DB) (tid : Int) : List WhistleblowerFileRow :=
  collect_pk_relation db.whistleblowerfile (receivertip_ids db tid) (fun r => r.receivertip_id)

/-- The snapshot assembled by collect_all_tenant_data once the tenant row
has been found: tenant id zeroed to EXPORTED_TENANT_ID, direct tables
filtered by tenant column, transitive tables chased per key. -/
def collected (db : DB) (tid : Int) (tenant : TenantRow) : TenantData :=
  { tenant := { tenant with id := some EXPORTED_TENANT_ID }
    context := collect_context db tid
    field := collect_field db tid
    user := collect_user db tid
    questionaire := collect_questionaire db tid
    submissionstatus := collect_submissionstatus db tid
    internaltip := collect_internaltip db tid
    archivedschema := collect_archivedschema db tid
    fieldanswer := collect_fieldanswer db tid
    fieldanswer_nulled := collect_fieldanswer_nulled db tid
    fieldanswergroup := collect_fieldanswergroup db tid
    internalfile := collect_internalfile db tid
    receiverfile := collect_receiverfile db tid
    receivertip := collect_receivertip db tid
    message := collect_message db tid
    whistleblowerfile := collect_whistleblowerfile db tid }

/-- collect_all_tenant_data(session, tid).  The source queries the Tenant
row with filter_by(id=tid).first() and immediately evaluates
tenant.label inside a print; when the tenant does not exist, first()
returns None and that attribute access raises AttributeError. -/
def collect_all_tenant_data (db : DB) (tid : Int) : Except PyError TenantData :=
  match db.tenant.find? (fun t => decide (t.id = some tid)) with
  | none => .error .attributeError
  | some tenant => .ok (collected db tid tenant)

/-- session.merge(row): replace the row with the same primary key if one
exists, otherwise insert the row at the end of the table. -/
def upsert {ρ κ : Type} [DecidableEq κ] (pk : ρ → κ) : List ρ → ρ → List ρ
  | [], r => [r]
  | x :: xs, r => if pk x = pk r then r :: xs else x :: upsert pk xs r

/-- Replaying one snapshot table: session.merge of each row in order. -/
def merge_rows {ρ κ : Type} [DecidableEq κ]
    (pk : ρ → κ) (table : List ρ) (snapshot : List ρ) : List ρ :=
  snapshot.foldl (fun acc r => upsert pk acc r) table

/-- The fieldanswer patch step for a single row:
session.query(models.FieldAnswer).filter_by(id=i).first() followed by an
assignment to its fieldanswergroup_id.  Returns none (AttributeError on
None) when no row with that id exists. -/
def denull_fieldanswer : List FieldAnswerRow → Nat → Option Nat →
    Option (List FieldAnswerRow)
  | [], _, _ => none
  | x :: xs, i, g =>
      if x.id = i then some ({ x with fieldanswergroup_id := g } :: xs)
      else match denull_fieldanswer xs i g with
        | none => none
        | some ys => some (x :: ys)

/-- The 'fieldanswer' element of the replay loop: instead of merging, set
each already-inserted row's circular column from the un-nulled variant,
keyed by shared primary id. -/
def patch_fieldanswers (table : List FieldAnswerRow)
    (fieldanswers : List FieldAnswerRow) : Except PyError (List FieldAnswerRow) :=
  fieldanswers.foldlM (fun acc fa =>
    match denull_fieldanswer acc fa.id fa.fieldanswergroup_id with
    | none => .error .attributeError
    | some ys => .ok ys) table

/-- The "Correct the TID in all rows" loop: overwrite row.tid on every
snapshot row that has a tid column (the tenant row itself is skipped;
tables without a tenant column are untouched by the hasattr guard). -/
def rewrite_tid (tid : Int) (td : TenantData) : TenantData :=
  { td with
    context := td.context.map (fun r => { r with tid := tid })
    field := td.field.map (fun r => { r with tid := tid })
    user := td.user.map (fun r => { r with tid := tid })
    questionaire := td.questionaire.map (fun r => { r with tid := tid })
    submissionstatus := td.submissionstatus.map (fun r => { r with tid := tid })
    internaltip := td.internaltip.map (fun r => { r with tid := tid }) }

/-- The IMPORT_ORDER replay restricted to the modelled tables, in the
source's order: archivedschema, questionaire, context, field,
internaltip, user, fieldanswer_nulled, fieldanswergroup, fieldanswer
(patched, not merged), internalfile, receivertip, receiverfile, message,
whistleblowerfile, submissionstatus. -/
def merge_replay (db0 : DB) (td : TenantData) : Except PyError DB :=
  let db1 := { db0 with
    archivedschema := merge_rows (fun r => r.hash) db0.archivedschema td.archivedschema }
  let db2 := { db1 with
    questionaire := merge_rows (fun r => r.id) db1.questionaire td.questionaire }
  let db3 := { db2 with
    context := merge_rows (fun r => r.id) db2.context td.context }
  let db4 := { db3 with
    field := merge_rows (fun r => r.id) db3.field td.field }
  let db5 := { db4 with
    internaltip := merge_rows (fun r => r.id) db4.internaltip td.internaltip }
  let db6 := { db5 with
    user := merge_rows (fun r => r.id) db5.user td.user }
  let db7 := { db6 with
    fieldanswer := merge_rows (fun r => r.id) db6.fieldanswer td.fieldanswer_nulled }
  let db8 := { db7 with
    fieldanswergroup := merge_rows (fun r => r.id) db7.fieldanswergroup td.fieldanswergroup }
  match patch_fieldanswers db8.fieldanswer td.fieldanswer with
  | .error e => .error e
  | .ok fas =>
    let db9 := { db8 with fieldanswer := fas }
    let db10 := { db9 with
      internalfile := merge_rows (fun r => r.id) db9.internalfile td.internalfile }
    let db11 := { db10 with
      receivertip := merge_rows (fun r => r.id) db10.receivertip td.receivertip }
    let db12 := { db11 with
      receiverfile := merge_rows (fun r => r.id) db11.receiverfile td.receiverfile }
    let db13 := { db12 with
      message := merge_rows (fun r => r.id) db12.message td.message }
    let db14 := { db13 with
      whistleblowerfile := merge_rows (fun r => r.id) db13.whistleblowerfile td.whistleblowerfile }
    let db15 := { db14 with
      submissionstatus := merge_rows (fun r => r.id) db14.submissionstatus td.submissionstatus }
    .ok db15

/-- merge_tenant_data(session, tenant_data, tid=None).  When tid is None
the tenant row's id is cleared, the row merged, the session flushed and
the autoincremented id captured; otherwise the tenant row's id is forced
to tid and the row merged.  The resolved id is then written into every
row's tenant column and the snapshot replayed in IMPORT_ORDER.  The
Python function has no return statement: its value is always None, which
is the first component of the returned pair. -/
def merge_tenant_data (db : DB) (td : TenantData) (tid : Option Int := none) :
    Except PyError (Option Int × DB) :=
  match tid with
  | none =>
      let newId := db.tenantNextId
      let db' := { db with
        tenant := upsert (fun t => t.id) db.tenant { td.tenant with id := some newId }
        tenantNextId := db.tenantNextId + 1 }
      (merge_replay db' (rewrite_tid newId td)).map (fun d => ((none : Option Int), d))
  | some t =>
      let db' := { db with
        tenant := upsert (fun t => t.id) db.tenant { td.tenant with id := some t } }
      (merge_replay db' (rewrite_tid t td)).map (fun d => ((none : Option Int), d))

/-- The schema-complete empty database created by Base.metadata.create_all
on a fresh file. -/
def emptyDB : DB :=
  { tenantNextId := 1, tenant := [], context := [], field := [], user := []
    questionaire := [], submissionstatus := [], internaltip := []
    archivedschema := [], fieldanswer := [], fieldanswergroup := []
    internalfile := [], receiverfile := [], receivertip := [], message := []
    whistleblowerfile := [] }

/-- write_tenant_to_fresh_db(tenant_data, db_path): initialize an empty
database and merge the snapshot into it at EXPORTED_TENANT_ID. -/
def write_tenant_to_fresh_db (td : TenantData) : Except PyError DB :=
  (merge_tenant_data emptyDB td (some EXPORTED_TENANT_ID)).map (fun p => p.2)

/-- write_tenant_to_preexisting_db(tenant_data, db_path): merge with no
explicit tenant id. -/
def write_tenant_to_preexisting_db (db : DB) (td : TenantData) : Except PyError DB :=
  (merge_tenant_data db td none).map (fun p => p.2)

/-- Entries of the export tar archive, by arcname shape: the
EXPORT_FORMAT marker with its contents, globaleaks.db, and one
`attachments/filename` member per packed attachment. -/
inductive TarEntry where
  | export_format (contents : String)
  | database
  | attachment (filename : String)
  deriving DecidableEq

/-- Filesystem-lifecycle events of the packager and unpacker, in the
order they are performed. -/
inductive Ev where
  | mkdtemp
  | merged
  | secure_delete_db
  | rmtree
  | fix_permissions
  deriving DecidableEq

/-- process_files_for_tarball(fileset) over receiverfile rows:
export_tarball.add raises FileNotFoundError when the backing blob is
absent, and the except handler swallows the error for every row — the
status == 'reference' test only selects whether a skip message is
printed.  `fsIsFile f` tells whether the blob named f exists under
Settings.attachments_path. -/
def process_files_for_tarball_rf (fsIsFile : String → Bool)
    (tar : List TarEntry) (fileset : List ReceiverFileRow) : List TarEntry :=
  fileset.foldl (fun acc file_obj =>
    if fsIsFile file_obj.filename then
      acc ++ [TarEntry.attachment file_obj.filename]
    else acc) tar

/-- process_files_for_tarball(fileset) over whistleblowerfile rows: the
same closure; these rows have no status attribute, so the hasattr guard
is false, and a missing blob is likewise silently skipped. -/
def process_files_for_tarball_wb (fsIsFile : String → Bool)
    (tar : List TarEntry) (fileset : List WhistleblowerFileRow) : List TarEntry :=
  fileset.foldl (fun acc file_obj =>
    if fsIsFile file_obj.filename then
      acc ++ [TarEntry.attachment file_obj.filename]
    else acc) tar

/-- Equality of Except values is decidable when it is on both sides. -/
instance exceptDecEq {ε α : Type} [DecidableEq ε] [DecidableEq α] :
    DecidableEq (Except ε α) := fun x y =>
  match x, y with
  | .ok a, .ok b =>
      if h : a = b then .isTrue (by rw [h]) else .isFalse (by simp [h])
  | .error a, .error b =>
      if h : a = b then .isTrue (by rw [h]) else .isFalse (by simp [h])
  | .ok _, .error _ => .isFalse (by simp)
  | .error _, .ok _ => .isFalse (by simp)

/-- Result of create_export_tarball: the returned bytes (as the list of
archive entries) or the propagated exception, plus the filesystem event
trace. -/
structure ExportOutcome where
  result : Except PyError (List TarEntry)
  trace : List Ev
  deriving DecidableEq

/-- create_export_tarball(session, tid): collect (before the try block),
then mkdtemp, write the scratch database, write the EXPORT_FORMAT marker
with contents "1", add the attachments of the receiverfile and
whistleblowerfile sets, and finally — on success or on any exception
after mkdtemp — rmtree the scratch directory. -/
def create_export_tarball (db : DB) (fsIsFile : String → Bool) (tid : Int) :
    ExportOutcome :=
  match collect_all_tenant_data db tid with
  | .error e => { result := .error e, trace := [] }
  | .ok td =>
    let body : Except PyError (List TarEntry) :=
      match write_tenant_to_fresh_db td with
      | .error e => .error e
      | .ok _scratchDb =>
        let tar : List TarEntry := [TarEntry.export_format "1", TarEntry.database]
        let tar := process_files_for_tarball_rf fsIsFile tar td.receiverfile
        let tar := process_files_for_tarball_wb fsIsFile tar td.whistleblowerfile
        .ok tar
    { result := body, trace := [Ev.mkdtemp, Ev.rmtree] }

/-- The archive handed to read_import_tarball, as the unpacker sees it
after extraction: whether the blob is a structurally valid gzip tar,
whether an EXPORT_FORMAT member is present and with what contents,
whether a globaleaks.db member is present and which database it holds,
and the filenames present under the attachments/ prefix. -/
structure Tarball where
  valid : Bool
  has_marker : Bool
  marker : String
  has_db : Bool
  db : DB
  files : List String
  deriving DecidableEq

/-- The mutable filesystem state of the attachment-rekeying phase:
the live Settings.attachments_path contents and the scratch
attachments folder contents. -/
structure CopyState where
  live : List String
  scratch : List String
  deriving DecidableEq

/-- randomize_filename_and_copy(row, status).  `gen` is the
generateRandomKey stream and ctr its position; `fuel` is the remaining
interpreter recursion budget (Python raises RecursionError when the
recursion limit is exhausted); `rowFilename` is row.filename on entry,
which the outer recursion level may already have reassigned.  Returns
the final row.filename, the new stream position and the new filesystem
state.  Mirrors the source exactly: on a live-name collision it recurses
and then falls through to the copy using the input path derived from the
filename captured at this level. -/
def randomize_filename_and_copy (gen : Nat → String) :
    Nat → Nat → CopyState → String → String →
    Except PyError (String × Nat × CopyState)
  | 0, _, _, _, _ => .error .recursionError
  | fuel + 1, ctr, st, rowFilename, status =>
    let orig_filename := rowFilename
    let newName :=
      if status = "encrypted" then "pgp_encrypted-" ++ gen ctr
      else gen ctr ++ ".plain"
    let ctr' := ctr + 1
    if newName ∈ st.live then
      match randomize_filename_and_copy gen fuel ctr' st newName status with
      | .error e => .error e
      | .ok (fn2, ctr2, st2) =>
          if status = "reference" ∧ orig_filename ∉ st2.scratch then
            .ok (fn2, ctr2, st2)
          else if orig_filename ∈ st2.scratch then
            .ok (fn2, ctr2,
              { live := newName :: st2.live, scratch := st2.scratch.erase orig_filename })
          else .error .fileNotFoundError
    else
      if status = "reference" ∧ orig_filename ∉ st.scratch then
        .ok (newName, ctr', st)
      else if orig_filename ∈ st.scratch then
        .ok (newName, ctr',
          { live := newName :: st.live, scratch := st.scratch.erase orig_filename })
      else .error .fileNotFoundError

/-- The first copy loop: randomize_filename_and_copy(row, row.status)
over the receiverfile rows, threading the random stream and the
filesystem state and collecting the renamed rows. -/
def copy_rows_rf (gen : Nat → String) (fuel : Nat) :
    Nat → CopyState → List ReceiverFileRow →
    Except PyError (List ReceiverFileRow × Nat × CopyState)
  | ctr, st, [] => .ok ([], ctr, st)
  | ctr, st, row :: rest =>
    match randomize_filename_and_copy gen fuel ctr st row.filename row.status with
    | .error e => .error e
    | .ok (fn, ctr1, st1) =>
      match copy_rows_rf gen fuel ctr1 st1 rest with
      | .error e => .error e
      | .ok (rows, ctr2, st2) => .ok ({ row with filename := fn } :: rows, ctr2, st2)

/-- The second copy loop: randomize_filename_and_copy(row, 'plain') over
the whistleblowerfile rows. -/
def copy_rows_wb (gen : Nat → String) (fuel : Nat) :
    Nat → CopyState → List WhistleblowerFileRow →
    Except PyError (List WhistleblowerFileRow × Nat × CopyState)
  | ctr, st, [] => .ok ([], ctr, st)
  | ctr, st, row :: rest =>
    match randomize_filename_and_copy gen fuel ctr st row.filename "plain" with
    | .error e => .error e
    | .ok (fn, ctr1, st1) =>
      match copy_rows_wb gen fuel ctr1 st1 rest with
      | .error e => .error e
      | .ok (rows, ctr2, st2) => .ok ({ row with filename := fn } :: rows, ctr2, st2)

/-- Result of read_import_tarball: the propagated exception if any, the
destination database after the call (unchanged unless the final merge
committed), the live attachment directory contents, and the filesystem
event trace. -/
structure ImportOutcome where
  result : Except PyError DB
  dest : DB
  live : List String
  trace : List Ev
  deriving DecidableEq

/-- read_import_tarball(gl_session, tarball_blob): mkdtemp, extract,
open the bundled database (sqlite creates an empty, schema-less file
when globaleaks.db is absent, so the tenant query fails with an
operational error), collect at EXPORTED_TENANT_ID, rekey and copy the
attachments, merge with no explicit tenant id, securely
overwrite-then-delete the scratch database, and in the finally block
rmtree the scratch directory and repair permissions.  The EXPORT_FORMAT
member is never consulted. -/
def read_import_tarball (dest : DB) (tb : Tarball) (live : List String)
    (gen : Nat → String) (recursion_limit : Nat) : ImportOutcome :=
  let finTrace := [Ev.mkdtemp, Ev.rmtree, Ev.fix_permissions]
  if tb.valid = false then
    { result := .error .readError, dest := dest, live := live, trace := finTrace }
  else
    let collectRes : Except PyError TenantData :=
      if tb.has_db then collect_all_tenant_data tb.db EXPORTED_TENANT_ID
      else .error .operationalError
    match collectRes with
    | .error e => { result := .error e, dest := dest, live := live, trace := finTrace }
    | .ok td =>
      let st0 : CopyState := { live := live, scratch := tb.files }
      match copy_rows_rf gen recursion_limit 0 st0 td.receiverfile with
      | .error e => { result := .error e, dest := dest, live := live, trace := finTrace }
      | .ok (rfs, ctr1, st1) =>
        match copy_rows_wb gen recursion_limit ctr1 st1 td.whistleblowerfile with
        | .error e => { result := .error e, dest := dest, live := st1.live, trace := finTrace }
        | .ok (wbs, _ctr2, st2) =>
          let td' := { td with receiverfile := rfs, whistleblowerfile := wbs }
          match merge_tenant_data dest td' none with
          | .error e =>
              { result := .error e, dest := dest, live := st2.live, trace := finTrace }
          | .ok (_, dest') =>
              { result := .ok dest', dest := dest', live := st2.live,
                trace := [Ev.mkdtemp, Ev.merged, Ev.secure_delete_db,
                          Ev.rmtree, Ev.fix_permissions] }

end ImportExport

namespace Submission

/-!
Model of globaleaks/handlers/submission.py: create_submission,
update_submission and the helpers they call.  Stores become explicit
values, Storm objects become records, exceptions become an error type,
and the opaque unique ids handed out for new InternalTip rows become a
monotone counter.  Each @transact function either returns the updated
store or an error, in which case the transaction is rolled back and the
store is unchanged.
-/

/-- Errors from globaleaks.rest.errors raised by these handlers. -/
inductive SubErr where
  | contextGusNotFound
  | receiverGusNotFound
  | fileGusNotFound
  | submissionFailFields (msg : String)
  | submissionGusNotFound
  | submissionConcluded
  deriving DecidableEq

/-- One entry of Context.fields: an expected field name and whether it
is required on finalization. -/
structure CtxField where
  name : String
  required : Bool
  deriving DecidableEq

/-- models.Context, restricted to the columns create_submission and
update_submission read. -/
structure SubContext where
  id : Nat
  selectable_receiver : Bool
  receivers : List Nat
  escalation_threshold : Int
  tip_max_access : Int
  file_max_download : Int
  tip_timetolive : Int
  fields : List CtxField
  deriving DecidableEq

/-- models.InternalTip, restricted to the columns these handlers touch. -/
structure Tip where
  id : Nat
  context_id : Nat
  mark : String
  escalation_threshold : Int
  access_limit : Int
  download_limit : Int
  expiration_date : Int
  pertinence_counter : Int
  creation_date : Int
  receivers : List Nat
  internalfiles : List Nat
  wb_fields : List (String × String)
  deriving DecidableEq

/-- The Storm store: contexts, the existing Receiver and InternalFile
ids, the InternalTip rows, and the id counter standing in for the
store's opaque unique-id generator. -/
structure Store where
  contexts : List SubContext
  receivers : List Nat
  internalfiles : List Nat
  tips : List Tip
  next_tip_id : Nat
  deriving DecidableEq

/-- A wbSubmissionDesc request body. -/
structure SubRequest where
  context_gus : Nat
  receivers : List Nat
  files : List Nat
  wb_fields : List (String × String)
  deriving DecidableEq

/-- InternalTip._marker.  Modelled from the spec: the marker list lives
in the models module, which is not part of the sources; the handlers
index it as _marker[0] (commented Submission) and _marker[1] (commented
Finalized), two distinct submission states. -/
def marker : List String := ["submission", "finalized"]

def find_context (store : Store) (cid : Nat) : Option SubContext :=
  store.contexts.find? (fun c => decide (c.id = cid))

/-- The receiver-lookup loop of import_receivers: each requested id must
name an existing Receiver, which is appended to submission.receivers. -/
def add_receivers (store : Store) (acc : List Nat) :
    List Nat → Except SubErr (List Nat)
  | [] => .ok acc
  | rid :: rest =>
      if rid ∈ store.receivers then add_receivers store (acc ++ [rid]) rest
      else .error .receiverGusNotFound

/-- import_receivers(store, submission, receiver_id_list, context,
required): when the context does not allow selectable receivers, the
context's receivers are added and the function returns early, skipping
the required check; otherwise each requested receiver is looked up and
the total count must be nonzero when required. -/
def sub_import_receivers (store : Store) (subReceivers : List Nat)
    (receiver_id_list : List Nat) (context : SubContext) (required : Bool) :
    Except SubErr (List Nat) :=
  if context.selectable_receiver = false then
    .ok (subReceivers ++ context.receivers)
  else
    match add_receivers store subReceivers receiver_id_list with
    | .error e => .error e
    | .ok recvs =>
        if required ∧ recvs.length = 0 then
          .error (.submissionFailFields "Receivers required to be completed")
        else .ok recvs

/-- The file-lookup loop of import_files. -/
def add_files (store : Store) (acc : List Nat) :
    List Nat → Except SubErr (List Nat)
  | [] => .ok acc
  | fid :: rest =>
      if fid ∈ store.internalfiles then add_files store (acc ++ [fid]) rest
      else .error .fileGusNotFound

def sub_import_files (store : Store) (subFiles : List Nat)
    (files : List Nat) : Except SubErr (List Nat) :=
  add_files store subFiles files

/-- The strict-validation pass of import_fields: the first required
expected field missing from the submitted keys, if any. -/
def missing_required (fields : List (String × String)) :
    List CtxField → Option String
  | [] => none
  | entry :: rest =>
      if entry.required ∧ (fields.find? (fun kv => decide (kv.1 = entry.name))).isNone
      then some entry.name
      else missing_required fields rest

/-- The key-validation loop of import_fields: every submitted key must
name an expected field; accepted pairs accumulate into wb_fields. -/
def fill_fields (expected : List CtxField) (acc : List (String × String)) :
    List (String × String) → Except SubErr (List (String × String))
  | [] => .ok acc
  | kv :: rest =>
      if (expected.find? (fun entry => decide (kv.1 = entry.name))).isSome then
        fill_fields expected (acc ++ [kv]) rest
      else .error (.submissionFailFields "Submitted field not expected in context")

/-- import_fields(submission, fields, expected_fields,
strict_validation): under strict validation an empty submission or a
missing required field fails; wb_fields is reset and rebuilt from the
validated submitted pairs. -/
def sub_import_fields (fields : List (String × String))
    (expected_fields : List CtxField) (strict_validation : Bool) :
    Except SubErr (List (String × String)) :=
  if strict_validation ∧ fields = [] then
    .error (.submissionFailFields "Missing submission!")
  else
    match (if strict_validation then missing_required fields expected_fields else none) with
    | some _name => .error (.submissionFailFields "Missing required field")
    | none =>
        if fields = [] then .ok []
        else fill_fields expected_fields [] fields

/-- create_submission(store, request, finalize): look up the context,
build a fresh InternalTip whose mark is _marker[0] when finalize is true
and _marker[1] when finalize is false, run the three import helpers, and
add the row.  Returns the updated store and the new submission id. -/
def create_submission (now : Int) (store : Store) (request : SubRequest)
    (finalize : Bool) : Except SubErr (Store × Nat) :=
  match find_context store request.context_gus with
  | none => .error .contextGusNotFound
  | some context =>
    let tipId := store.next_tip_id
    let submission : Tip :=
      { id := tipId
        context_id := context.id
        mark := if finalize then marker.getD 0 "" else marker.getD 1 ""
        escalation_threshold := context.escalation_threshold
        access_limit := context.tip_max_access
        download_limit := context.file_max_download
        expiration_date := now + 24 * context.tip_timetolive
        pertinence_counter := 0
        creation_date := now
        receivers := []
        internalfiles := []
        wb_fields := [] }
    match sub_import_receivers store submission.receivers request.receivers
        context finalize with
    | .error e => .error e
    | .ok recvs =>
      match sub_import_files store submission.internalfiles request.files with
      | .error e => .error e
      | .ok fls =>
        match sub_import_fields request.wb_fields context.fields finalize with
        | .error e => .error e
        | .ok wbf =>
          let submission :=
            { submission with receivers := recvs, internalfiles := fls, wb_fields := wbf }
          .ok ({ store with tips := store.tips ++ [submission],
                            next_tip_id := store.next_tip_id + 1 }, tipId)

/-- update_submission(store, id, request, finalize): look up the
submission, raise SubmissionConcluded unless its mark is _marker[0],
check the context has not changed, rerun the import helpers, and set the
mark to _marker[1] when finalizing. -/
def update_submission (store : Store) (id : Nat) (request : SubRequest)
    (finalize : Bool) : Except SubErr (Store × Nat) :=
  match store.tips.find? (fun t => decide (t.id = id)) with
  | none => .error .submissionGusNotFound
  | some submission =>
    if submission.mark ≠ marker.getD 0 "" then .error .submissionConcluded
    else
      match find_context store request.context_gus with
      | none => .error .contextGusNotFound
      | some context =>
        if submission.context_id ≠ context.id then .error .contextGusNotFound
        else
          match sub_import_receivers store submission.receivers request.receivers
              context finalize with
          | .error e => .error e
          | .ok recvs =>
            match sub_import_files store submission.internalfiles request.files with
            | .error e => .error e
            | .ok fls =>
              match sub_import_fields request.wb_fields context.fields finalize with
              | .error e => .error e
              | .ok wbf =>
                let submission' :=
                  { submission with
                    receivers := recvs, internalfiles := fls, wb_fields := wbf
                    mark := if finalize then marker.getD 1 "" else submission.mark }
                .ok ({ store with tips :=
                        store.tips.map (fun t =>
                          if t.id = id then submission' else t) },
                     submission.id)

/-- A client-visible operation on the submission store. -/
inductive SubOp where
  | createOp (request : SubRequest) (finalize : Bool)
  | updateOp (id : Nat) (request : SubRequest) (finalize : Bool)

/-- Apply one operation; a raised error rolls the transaction back and
leaves the store unchanged. -/
def apply_op (now : Int) (store : Store) : SubOp → Store
  | .createOp r f =>
      match create_submission now store r f with
      | .ok (s, _) => s
      | .error _ => store
  | .updateOp i r f =>
      match update_submission store i r f with
      | .ok (s, _) => s
      | .error _ => store

def apply_ops (now : Int) (store : Store) (ops : List SubOp) : Store :=
  ops.foldl (apply_op now) store

/-- The tip id i can never be updated again: every existing row with
that id is past the _marker[0] state, and the id generator will never
hand the id out to a new row. -/
def never_updatable (store : Store) (i : Nat) : Prop :=
  (∀ t ∈ store.tips, t.id = i → t.mark ≠ marker.getD 0 "") ∧ i < store.next_tip_id

end Submission

namespace ImportExport

/-! Auxiliary notions used to state and prove the properties. -/

/-- The primary key determines the row within the list: any two members
with equal key are equal.  This is the integrity property the ORM
guarantees for a table, and membership in such a list inherits it. -/
def PkDet {ρ κ : Type} (pk : ρ → κ) (l : List ρ) : Prop :=
  ∀ x ∈ l, ∀ y ∈ l, pk x = pk y → x = y

/-- The row of a table holding a given key value (the first one, as an
ORM primary-key query returns it). -/
def lookup_by {ρ κ : Type} [DecidableEq κ] (pk : ρ → κ) (l : List ρ) (k : κ) : Option ρ :=
  l.find? (fun x => decide (pk x = k))

/-- Well-formedness of a database: every table's primary-key column is
duplicate-free, as the relational schema enforces. -/
structure WF (db : DB) : Prop where
  tenant_n : (db.tenant.map (fun r => r.id)).Nodup
  context_n : (db.context.map (fun r => r.id)).Nodup
  field_n : (db.field.map (fun r => r.id)).Nodup
  user_n : (db.user.map (fun r => r.id)).Nodup
  questionaire_n : (db.questionaire.map (fun r => r.id)).Nodup
  submissionstatus_n : (db.submissionstatus.map (fun r => r.id)).Nodup
  internaltip_n : (db.internaltip.map (fun r => r.id)).Nodup
  archivedschema_n : (db.archivedschema.map (fun r => r.hash)).Nodup
  fieldanswer_n : (db.fieldanswer.map (fun r => r.id)).Nodup
  fieldanswergroup_n : (db.fieldanswergroup.map (fun r => r.id)).Nodup
  internalfile_n : (db.internalfile.map (fun r => r.id)).Nodup
  receiverfile_n : (db.receiverfile.map (fun r => r.id)).Nodup
  receivertip_n : (db.receivertip.map (fun r => r.id)).Nodup
  message_n : (db.message.map (fun r => r.id)).Nodup
  whistleblowerfile_n : (db.whistleblowerfile.map (fun r => r.id)).Nodup

/-- The Python return value of a merge_tenant_data call, when the call
does not raise. -/
def mergeRetval (db : DB) (td : TenantData) (tid : Option Int) : Option (Option Int) :=
  (merge_tenant_data db td tid).toOption.map (fun p => p.1)

/-- A snapshot holding only a tenant row, with every table empty. -/
def snapshotOfTenant (t : TenantRow) : TenantData :=
  { tenant := t, context := [], field := [], user := [], questionaire := []
    submissionstatus := [], internaltip := [], archivedschema := []
    fieldanswer := [], fieldanswer_nulled := [], fieldanswergroup := []
    internalfile := [], receiverfile := [], receivertip := [], message := []
    whistleblowerfile := [] }

/-! Concrete fixtures used by witnesses and counterexamples. -/

/-- A deterministic stand-in for the generateRandomKey stream. -/
def fixture_gen : Nat → String := fun n => Nat.repr n

/-- A database holding tenant 3 with one context, one tip, one answer
row in a fieldanswergroup cycle and its archived schema. -/
def fixture_c1_db : DB :=
  { emptyDB with
    tenant := [{ id := some 3, label := "W" }]
    context := [{ id := 50, tid := 3, payload := "c" }]
    internaltip := [{ id := 1, tid := 3, questionnaire_hash := 9, payload := "t" }]
    archivedschema := [{ hash := 9, payload := "s" }]
    fieldanswer := [{ id := 100, internaltip_id := 1, fieldanswergroup_id := some 200,
                      payload := "fa" }]
    fieldanswergroup := [{ id := 200, fieldanswer_id := 100, payload := "gr" }] }

/-- A database holding tenant 1 with one internalfile chain ending in a
receiverfile whose status is "encrypted". -/
def fixture_c3_db : DB :=
  { emptyDB with
    tenant := [{ id := some 1, label := "T" }]
    internaltip := [{ id := 10, tid := 1, questionnaire_hash := 0, payload := "tip" }]
    internalfile := [{ id := 20, internaltip_id := 10, filename := "ifile", payload := "if" }]
    receiverfile := [{ id := 30, internalfile_id := 20, filename := "f1",
                       status := "encrypted", payload := "rf" }] }

/-- An export database holding exactly the sentinel tenant. -/
def fixture_export_db : DB :=
  { emptyDB with tenant := [{ id := some 0, label := "T" }] }

/-- A structurally valid archive whose EXPORT_FORMAT member is absent
and whose marker value, were it present, would not be 1. -/
def fixture_c4_tb : Tarball :=
  { valid := true, has_marker := false, marker := "2", has_db := true
    db := fixture_export_db, files := [] }

/-- A database where two internal tips of tenant 1 share the same
questionnaire hash, referencing a single archived schema. -/
def fixture_c6_db : DB :=
  { emptyDB with
    tenant := [{ id := some 1, label := "T" }]
    internaltip := [{ id := 10, tid := 1, questionnaire_hash := 5, payload := "a" },
                    { id := 11, tid := 1, questionnaire_hash := 5, payload := "b" }]
    archivedschema := [{ hash := 5, payload := "s" }] }

/-- A copy state where the first generated encrypted name is already
live and the scratch folder holds only the original blob. -/
def fixture_c7_st : CopyState :=
  { live := ["pgp_encrypted-0"], scratch := ["orig"] }

/-- The live-name list that makes the first n generated encrypted names
collide. -/
def colliding_live (gen : Nat → String) (n : Nat) : List String :=
  (List.range n).map (fun j => "pgp_encrypted-" ++ gen j)

end ImportExport

namespace Submission

/-! Concrete fixtures for the submission-handler claims. -/

def fixture_ctx : SubContext :=
  { id := 1, selectable_receiver := false, receivers := []
    escalation_threshold := 0, tip_max_access := 5, file_max_download := 5
    tip_timetolive := 1, fields := [{ name := "a", required := true }] }

def fixture_store : Store :=
  { contexts := [fixture_ctx], receivers := [], internalfiles := [], tips := []
    next_tip_id := 0 }

def fixture_req : SubRequest :=
  { context_gus := 1, receivers := [], files := [], wb_fields := [("a", "v")] }

/-- A store holding one tip already past the _marker[0] state. -/
def fixture_concluded_store : Store :=
  { contexts := [fixture_ctx], receivers := [], internalfiles := []
    tips := [{ id := 0, context_id := 1, mark := "finalized"
               escalation_threshold := 0, access_limit := 5, download_limit := 5
               expiration_date := 24, pertinence_counter := 0, creation_date := 0
               receivers := [], internalfiles := [], wb_fields := [("a", "v")] }]
    next_tip_id := 1 }

end Submission


namespace ImportExport

/-! Generic lemmas about lookup, upsert, replay and collection. -/

theorem pkdet_of_nodup_map {ρ κ : Type} {pk : ρ → κ} {l : List ρ}
    (h : (l.map pk).Nodup) : PkDet pk l :=
  fun _ hx _ hy hxy => List.inj_on_of_nodup_map h hx hy hxy

theorem pkdet_sub {ρ κ : Type} {pk : ρ → κ} {l l' : List ρ}
    (hsub : ∀ x ∈ l', x ∈ l) (h : PkDet pk l) : PkDet pk l' :=
  fun x hx y hy hxy => h x (hsub x hx) y (hsub y hy) hxy

theorem lookup_by_upsert {ρ κ : Type} [DecidableEq κ] (pk : ρ → κ)
    (l : List ρ) (r : ρ) (k : κ) :
    lookup_by pk (upsert pk l r) k =
      if pk r = k then some r else lookup_by pk l k := by
  induction l with
  | nil =>
      by_cases hk : pk r = k <;> simp [upsert, lookup_by, hk]
  | cons x xs ih =>
      by_cases hx : pk x = pk r
      · by_cases hk : pk r = k
        · simp [upsert, hx, lookup_by, hk]
        · have hxk : ¬ pk x = k := by rw [hx]; exact hk
          simp [upsert, hx, lookup_by, hk, hxk]
      · have hup : upsert pk (x :: xs) r = x :: upsert pk xs r := by
          simp [upsert, hx]
        by_cases hxk : pk x = k
        · have hk : ¬ pk r = k := fun h => hx (hxk.trans h.symm)
          rw [hup]
          simp [lookup_by, hxk, hk]
        · rw [hup]
          simpa [lookup_by, hxk] using ih

theorem lookup_by_self {ρ κ : Type} [DecidableEq κ] {pk : ρ → κ}
    {l : List ρ} {r : ρ} (hr : r ∈ l) (hdet : PkDet pk l) :
    lookup_by pk l (pk r) = some r := by
  induction l with
  | nil => cases hr
  | cons x xs ih =>
      by_cases hx : pk x = pk r
      · have hxr : x = r := hdet x (List.mem_cons_self x xs) r hr hx
        simp [lookup_by, hxr]
      · have hr' : r ∈ xs := by
          rcases List.mem_cons.mp hr with h | h
          · exact absurd (h ▸ rfl) hx
          · exact h
        have hdet' : PkDet pk xs :=
          pkdet_sub (fun y hy => List.mem_cons_of_mem _ hy) hdet
        simpa [lookup_by, hx] using ih hr' hdet'

theorem lookup_by_merge_rows {ρ κ : Type} [DecidableEq κ] (pk : ρ → κ)
    (l snap : List ρ) (k : κ) (hdet : PkDet pk snap) :
    lookup_by pk (merge_rows pk l snap) k =
      match lookup_by pk snap k with
      | some r => some r
      | none => lookup_by pk l k := by
  induction snap generalizing l with
  | nil => simp [merge_rows, lookup_by]
  | cons r rs ih =>
      have hdet' : PkDet pk rs :=
        pkdet_sub (fun y hy => List.mem_cons_of_mem _ hy) hdet
      have hstep : merge_rows pk l (r :: rs) = merge_rows pk (upsert pk l r) rs := by
        simp [merge_rows]
      rw [hstep, ih (upsert pk l r) hdet']
      by_cases hk : pk r = k
      · have hhead : lookup_by pk (r :: rs) k = some r := by
          simp [lookup_by, hk]
        rw [hhead]
        cases hfind : lookup_by pk rs k with
        | none => simp [lookup_by_upsert, hk]
        | some r' =>
            have hmem : r' ∈ rs := List.mem_of_find?_eq_some hfind
            have hpk : pk r' = k := by
              have := List.find?_some hfind
              simpa using this
            have : r' = r :=
              hdet r' (List.mem_cons_of_mem _ hmem) r (List.mem_cons_self r rs)
                (hpk.trans hk.symm)
            simp [this]
      · have hhead : lookup_by pk (r :: rs) k = lookup_by pk rs k := by
          simp [lookup_by, hk]
        rw [hhead]
        cases hfind : lookup_by pk rs k with
        | none => simp [lookup_by_upsert, hk]
        | some r' => simp

theorem lookup_by_merge_rows_self {ρ κ : Type} [DecidableEq κ] {pk : ρ → κ}
    {l snap : List ρ} {r : ρ} (hr : r ∈ snap) (hdet : PkDet pk snap) :
    lookup_by pk (merge_rows pk l snap) (pk r) = some r := by
  rw [lookup_by_merge_rows pk l snap (pk r) hdet, lookup_by_self hr hdet]

theorem mem_collect_pk_relation {ρ κ : Type} [DecidableEq κ]
    {rows : List ρ} {pks : List κ} {f : ρ → κ} {r : ρ} :
    r ∈ collect_pk_relation rows pks f ↔ r ∈ rows ∧ f r ∈ pks := by
  induction pks with
  | nil => simp [collect_pk_relation]
  | cons pk rest ih =>
      simp only [collect_pk_relation, List.mem_append, List.mem_filter,
        decide_eq_true_eq, ih, List.mem_cons]
      constructor
      · rintro (⟨h1, h2⟩ | ⟨h1, h2⟩)
        · exact ⟨h1, Or.inl h2⟩
        · exact ⟨h1, Or.inr h2⟩
      · rintro ⟨h1, h2 | h2⟩
        · exact Or.inl ⟨h1, h2⟩
        · exact Or.inr ⟨h1, h2⟩

theorem nodup_collect_pk_relation {ρ κ : Type} [DecidableEq κ]
    {rows : List ρ} {pks : List κ} {f : ρ → κ}
    (hrows : rows.Nodup) (hpks : pks.Nodup) :
    (collect_pk_relation rows pks f).Nodup := by
  induction pks with
  | nil => simp [collect_pk_relation]
  | cons pk rest ih =>
      have hpk_notmem : pk ∉ rest := (List.nodup_cons.mp hpks).1
      have hrest : rest.Nodup := (List.nodup_cons.mp hpks).2
      refine List.Nodup.append (hrows.filter _) (ih hrest) ?_
      intro x hx hx'
      have h1 : f x = pk := by
        have := (List.mem_filter.mp hx).2
        simpa using this
      have h2 : f x ∈ rest := (mem_collect_pk_relation.mp hx').2
      exact hpk_notmem (h1 ▸ h2)

theorem nodup_map_collect_pk_relation {ρ κ κ2 : Type} [DecidableEq κ]
    {rows : List ρ} {pks : List κ} {f : ρ → κ} (g : ρ → κ2)
    (hmap : (rows.map g).Nodup) (hpks : pks.Nodup) :
    ((collect_pk_relation rows pks f).map g).Nodup := by
  have hnd : (collect_pk_relation rows pks f).Nodup :=
    nodup_collect_pk_relation (List.Nodup.of_map g hmap) hpks
  refine hnd.map_on ?_
  intro x hx y hy hxy
  exact List.inj_on_of_nodup_map hmap
    (mem_collect_pk_relation.mp hx).1 (mem_collect_pk_relation.mp hy).1 hxy

end ImportExport

namespace ImportExport

/-! Lemmas about the cycle-restoring patch pass. -/

theorem denull_fieldanswer_some {l : List FieldAnswerRow} {i : Nat} (g : Option Nat)
    {x : FieldAnswerRow} (h : lookup_by (fun r => r.id) l i = some x) :
    ∃ l', denull_fieldanswer l i g = some l' := by
  induction l with
  | nil => simp [lookup_by] at h
  | cons y ys ih =>
      by_cases hy : y.id = i
      · refine ⟨{ y with fieldanswergroup_id := g } :: ys, ?_⟩
        simp [denull_fieldanswer, hy]
      · have h' : lookup_by (fun r => r.id) ys i = some x := by
          simpa [lookup_by, hy] using h
        obtain ⟨l', hl'⟩ := ih h'
        exact ⟨y :: l', by simp [denull_fieldanswer, hy, hl']⟩

theorem denull_fieldanswer_lookup {l l' : List FieldAnswerRow} {i : Nat} {g : Option Nat}
    (h : denull_fieldanswer l i g = some l') (k : Nat) :
    lookup_by (fun r => r.id) l' k =
      if i = k then
        (lookup_by (fun r => r.id) l k).map (fun x => { x with fieldanswergroup_id := g })
      else lookup_by (fun r => r.id) l k := by
  induction l generalizing l' with
  | nil => simp [denull_fieldanswer] at h
  | cons x xs ih =>
      by_cases hx : x.id = i
      · have hl' : l' = { x with fieldanswergroup_id := g } :: xs := by
          have := h
          simp only [denull_fieldanswer, if_pos hx] at this
          exact (Option.some.injEq _ _ ▸ this.symm :)
        subst hl'
        by_cases hk : i = k
        · subst hk
          simp [lookup_by, hx]
        · have hxk : ¬ x.id = k := fun he => hk (hx.symm.trans he)
          simp [lookup_by, hxk, hk]
      · rcases h' : denull_fieldanswer xs i g with _ | ys
        · rw [denull_fieldanswer] at h
          simp [hx, h'] at h
        · rw [denull_fieldanswer] at h
          simp only [if_neg hx, h'] at h
          have hl' : l' = x :: ys := by
            exact (Option.some.injEq _ _ ▸ h.symm :)
          subst hl'
          by_cases hxk : x.id = k
          · have hik : ¬ i = k := fun he => hx (hxk.trans he.symm)
            simp [lookup_by, hxk, hik]
          · have hys := ih h'
            have hhead : lookup_by (fun r => r.id) (x :: ys) k =
                lookup_by (fun r => r.id) ys k := by
              simp [lookup_by, hxk]
            have hhead2 : lookup_by (fun r => r.id) (x :: xs) k =
                lookup_by (fun r => r.id) xs k := by
              simp [lookup_by, hxk]
            rw [hhead, hhead2]
            exact hys

theorem patch_fieldanswers_ok {fas : List FieldAnswerRow}
    (hdet : PkDet (fun r => r.id) fas) :
    ∀ t : List FieldAnswerRow,
      (∀ fa ∈ fas,
        lookup_by (fun r => r.id) t fa.id =
            some { fa with fieldanswergroup_id := none } ∨
        lookup_by (fun r => r.id) t fa.id = some fa) →
      ∃ t', patch_fieldanswers t fas = .ok t' ∧
        (∀ fa ∈ fas, lookup_by (fun r => r.id) t' fa.id = some fa) ∧
        (∀ k, (∀ fa ∈ fas, fa.id ≠ k) →
          lookup_by (fun r => r.id) t' k = lookup_by (fun r => r.id) t k) := by
  classical
  induction fas with
  | nil =>
      intro t _
      exact ⟨t, rfl, by simp, fun k _ => rfl⟩
  | cons fa rest ih =>
      intro t hpre
      have hdet' : PkDet (fun r => r.id) rest :=
        pkdet_sub (fun y hy => List.mem_cons_of_mem _ hy) hdet
      obtain ⟨t1, ht1⟩ :
          ∃ t1, denull_fieldanswer t fa.id fa.fieldanswergroup_id = some t1 := by
        rcases hpre fa (List.mem_cons_self fa rest) with hx | hx
        · exact denull_fieldanswer_some _ hx
        · exact denull_fieldanswer_some _ hx
      have hchar := denull_fieldanswer_lookup ht1
      have ht1_fa : lookup_by (fun r => r.id) t1 fa.id = some fa := by
        have := hchar fa.id
        rw [if_pos rfl] at this
        rcases hpre fa (List.mem_cons_self fa rest) with hx | hx
        · rw [hx] at this
          simpa using this
        · rw [hx] at this
          simpa using this
      have hpre1 : ∀ fa' ∈ rest,
          lookup_by (fun r => r.id) t1 fa'.id =
              some { fa' with fieldanswergroup_id := none } ∨
          lookup_by (fun r => r.id) t1 fa'.id = some fa' := by
        intro fa' hfa'
        by_cases hsame : fa.id = fa'.id
        · have : fa' = fa :=
            hdet fa' (List.mem_cons_of_mem _ hfa') fa (List.mem_cons_self fa rest)
              hsame.symm
          right
          rw [this, ht1_fa]
        · have := hchar fa'.id
          rw [if_neg hsame] at this
          rw [this]
          exact hpre fa' (List.mem_cons_of_mem _ hfa')
      obtain ⟨t', hok, hall, hout⟩ := ih hdet' t1 hpre1
      have hstep : patch_fieldanswers t (fa :: rest) = patch_fieldanswers t1 rest := by
        simp only [patch_fieldanswers, List.foldlM_cons, ht1]
        rfl
      refine ⟨t', by rw [hstep]; exact hok, ?_, ?_⟩
      · intro fa' hfa'
        rcases List.mem_cons.mp hfa' with h | h
        · subst h
          by_cases hex : ∃ x ∈ rest, x.id = fa'.id
          · obtain ⟨x, hx, hxid⟩ := hex
            have : x = fa' :=
              hdet x (List.mem_cons_of_mem _ hx) fa' (List.mem_cons_self fa' rest) hxid
            subst this
            exact hall x hx
          · have hnone : ∀ y ∈ rest, y.id ≠ fa'.id := by
              intro y hy hyid
              exact hex ⟨y, hy, hyid⟩
            rw [hout fa'.id hnone]
            exact ht1_fa
        · exact hall fa' h
      · intro k hk
        have h1 : ∀ y ∈ rest, y.id ≠ k := fun y hy =>
          hk y (List.mem_cons_of_mem _ hy)
        rw [hout k h1]
        have := hchar k
        rw [if_neg (hk fa (List.mem_cons_self fa rest))] at this
        exact this

end ImportExport

namespace ImportExport

theorem lookup_merge_of_sub {ρ κ : Type} [DecidableEq κ] {pk : ρ → κ}
    {table snap : List ρ} (hsub : ∀ x ∈ snap, x ∈ table)
    (hn : (table.map pk).Nodup) :
    ∀ r ∈ snap, lookup_by pk (merge_rows pk table snap) (pk r) = some r :=
  fun _ hr => lookup_by_merge_rows_self hr (pkdet_sub hsub (pkdet_of_nodup_map hn))

/-- merge_replay written as one pattern match, for rewriting. -/
theorem merge_replay_unfold (db : DB) (td : TenantData) :
    merge_replay db td =
      match patch_fieldanswers
          (merge_rows (fun r => r.id) db.fieldanswer td.fieldanswer_nulled)
          td.fieldanswer with
      | .error e => .error e
      | .ok fas => .ok
          { db with
            archivedschema :=
              merge_rows (fun r => r.hash) db.archivedschema td.archivedschema
            questionaire := merge_rows (fun r => r.id) db.questionaire td.questionaire
            context := merge_rows (fun r => r.id) db.context td.context
            field := merge_rows (fun r => r.id) db.field td.field
            internaltip := merge_rows (fun r => r.id) db.internaltip td.internaltip
            user := merge_rows (fun r => r.id) db.user td.user
            fieldanswer := fas
            fieldanswergroup :=
              merge_rows (fun r => r.id) db.fieldanswergroup td.fieldanswergroup
            internalfile := merge_rows (fun r => r.id) db.internalfile td.internalfile
            receivertip := merge_rows (fun r => r.id) db.receivertip td.receivertip
            receiverfile := merge_rows (fun r => r.id) db.receiverfile td.receiverfile
            message := merge_rows (fun r => r.id) db.message td.message
            whistleblowerfile :=
              merge_rows (fun r => r.id) db.whistleblowerfile td.whistleblowerfile
            submissionstatus :=
              merge_rows (fun r => r.id) db.submissionstatus td.submissionstatus } := by
  rfl

/-- When the nulled variant really is the fieldanswer set with the
circular column nulled (as the collector builds it), the replay
succeeds, every non-cycle table is the plain per-table upsert fold, and
the patch pass leaves each fieldanswer row restored to its un-nulled
value. -/
theorem merge_replay_spec (db : DB) (td : TenantData)
    (hnull : td.fieldanswer_nulled =
      td.fieldanswer.map (fun fa => { fa with fieldanswergroup_id := none }))
    (hdet : PkDet (fun r => r.id) td.fieldanswer) :
    ∃ db', merge_replay db td = .ok db' ∧
      db'.tenantNextId = db.tenantNextId ∧
      db'.tenant = db.tenant ∧
      db'.archivedschema = merge_rows (fun r => r.hash) db.archivedschema td.archivedschema ∧
      db'.questionaire = merge_rows (fun r => r.id) db.questionaire td.questionaire ∧
      db'.context = merge_rows (fun r => r.id) db.context td.context ∧
      db'.field = merge_rows (fun r => r.id) db.field td.field ∧
      db'.internaltip = merge_rows (fun r => r.id) db.internaltip td.internaltip ∧
      db'.user = merge_rows (fun r => r.id) db.user td.user ∧
      db'.fieldanswergroup =
        merge_rows (fun r => r.id) db.fieldanswergroup td.fieldanswergroup ∧
      db'.internalfile = merge_rows (fun r => r.id) db.internalfile td.internalfile ∧
      db'.receivertip = merge_rows (fun r => r.id) db.receivertip td.receivertip ∧
      db'.receiverfile = merge_rows (fun r => r.id) db.receiverfile td.receiverfile ∧
      db'.message = merge_rows (fun r => r.id) db.message td.message ∧
      db'.whistleblowerfile =
        merge_rows (fun r => r.id) db.whistleblowerfile td.whistleblowerfile ∧
      db'.submissionstatus =
        merge_rows (fun r => r.id) db.submissionstatus td.submissionstatus ∧
      (∀ fa ∈ td.fieldanswer, lookup_by (fun r => r.id) db'.fieldanswer fa.id = some fa) := by
  have hdetN : PkDet (fun r : FieldAnswerRow => r.id) td.fieldanswer_nulled := by
    rw [hnull]
    intro x hx y hy hxy
    obtain ⟨a, ha, rfl⟩ := List.mem_map.mp hx
    obtain ⟨b, hb, rfl⟩ := List.mem_map.mp hy
    have hab : a = b := hdet a ha b hb (by simpa using hxy)
    rw [hab]
  have hpre : ∀ fa ∈ td.fieldanswer,
      lookup_by (fun r => r.id)
          (merge_rows (fun r => r.id) db.fieldanswer td.fieldanswer_nulled) fa.id =
        some { fa with fieldanswergroup_id := none } ∨
      lookup_by (fun r => r.id)
          (merge_rows (fun r => r.id) db.fieldanswer td.fieldanswer_nulled) fa.id =
        some fa := by
    intro fa hfa
    left
    have hmem : ({ fa with fieldanswergroup_id := none } : FieldAnswerRow) ∈
        td.fieldanswer_nulled := by
      rw [hnull]
      exact List.mem_map_of_mem _ hfa
    exact lookup_by_merge_rows_self hmem hdetN
  obtain ⟨fas, hok, hall, _hout⟩ :=
    patch_fieldanswers_ok hdet
      (merge_rows (fun r => r.id) db.fieldanswer td.fieldanswer_nulled) hpre
  have hmr : merge_replay db td = .ok
      { db with
        archivedschema :=
          merge_rows (fun r => r.hash) db.archivedschema td.archivedschema
        questionaire := merge_rows (fun r => r.id) db.questionaire td.questionaire
        context := merge_rows (fun r => r.id) db.context td.context
        field := merge_rows (fun r => r.id) db.field td.field
        internaltip := merge_rows (fun r => r.id) db.internaltip td.internaltip
        user := merge_rows (fun r => r.id) db.user td.user
        fieldanswer := fas
        fieldanswergroup :=
          merge_rows (fun r => r.id) db.fieldanswergroup td.fieldanswergroup
        internalfile := merge_rows (fun r => r.id) db.internalfile td.internalfile
        receivertip := merge_rows (fun r => r.id) db.receivertip td.receivertip
        receiverfile := merge_rows (fun r => r.id) db.receiverfile td.receiverfile
        message := merge_rows (fun r => r.id) db.message td.message
        whistleblowerfile :=
          merge_rows (fun r => r.id) db.whistleblowerfile td.whistleblowerfile
        submissionstatus :=
          merge_rows (fun r => r.id) db.submissionstatus td.submissionstatus } := by
    rw [merge_replay_unfold, hok]
  exact ⟨_, hmr, rfl, rfl, rfl, rfl, rfl, rfl, rfl, rfl, rfl, rfl, rfl, rfl, rfl,
      rfl, rfl, hall⟩

end ImportExport

namespace ImportExport

/-! Rewriting the tenant column of a directly-collected row set with the
tenant id it was collected under leaves every row unchanged. -/

theorem collect_context_settid (db : DB) (T : Int) :
    (collect_context db T).map (fun r => { r with tid := T }) = collect_context db T := by
  have h : ∀ r ∈ collect_context db T, ({ r with tid := T } : ContextRow) = r := by
    intro r hr
    have htid : r.tid = T := by
      have := (List.mem_filter.mp hr).2
      simpa using this
    cases r
    simp_all
  rw [List.map_congr_left h]
  exact List.map_id _

theorem collect_field_settid (db : DB) (T : Int) :
    (collect_field db T).map (fun r => { r with tid := T }) = collect_field db T := by
  have h : ∀ r ∈ collect_field db T, ({ r with tid := T } : FieldRow) = r := by
    intro r hr
    have htid : r.tid = T := by
      have := (List.mem_filter.mp hr).2
      simpa using this
    cases r
    simp_all
  rw [List.map_congr_left h]
  exact List.map_id _

theorem collect_user_settid (db : DB) (T : Int) :
    (collect_user db T).map (fun r => { r with tid := T }) = collect_user db T := by
  have h : ∀ r ∈ collect_user db T, ({ r with tid := T } : UserRow) = r := by
    intro r hr
    have htid : r.tid = T := by
      have := (List.mem_filter.mp hr).2
      simpa using this
    cases r
    simp_all
  rw [List.map_congr_left h]
  exact List.map_id _

theorem collect_questionaire_settid (db : DB) (T : Int) :
    (collect_questionaire db T).map (fun r => { r with tid := T }) =
      collect_questionaire db T := by
  have h : ∀ r ∈ collect_questionaire db T,
      ({ r with tid := T } : QuestionaireRow) = r := by
    intro r hr
    have htid : r.tid = T := by
      have := (List.mem_filter.mp hr).2
      simpa using this
    cases r
    simp_all
  rw [List.map_congr_left h]
  exact List.map_id _

theorem collect_submissionstatus_settid (db : DB) (T : Int) :
    (collect_submissionstatus db T).map (fun r => { r with tid := T }) =
      collect_submissionstatus db T := by
  have h : ∀ r ∈ collect_submissionstatus db T,
      ({ r with tid := T } : SubmissionStatusRow) = r := by
    intro r hr
    have htid : r.tid = T := by
      have := (List.mem_filter.mp hr).2
      simpa using this
    cases r
    simp_all
  rw [List.map_congr_left h]
  exact List.map_id _

theorem collect_internaltip_settid (db : DB) (T : Int) :
    (collect_internaltip db T).map (fun r => { r with tid := T }) =
      collect_internaltip db T := by
  have h : ∀ r ∈ collect_internaltip db T,
      ({ r with tid := T } : InternalTipRow) = r := by
    intro r hr
    have htid : r.tid = T := by
      have := (List.mem_filter.mp hr).2
      simpa using this
    cases r
    simp_all
  rw [List.map_congr_left h]
  exact List.map_id _

end ImportExport

namespace ImportExport

/-- C1: for every tenant T existing in the source database, merging a
freshly collected snapshot of T back into the same database under T's
own explicit tenant id reproduces every collected row — all of its
non-tenant-reference columns, looked up by shared primary key — and in
particular the cycle-broken foreign key fieldanswer.fieldanswergroup_id,
nulled in the fieldanswer_nulled copy during collection, is fully
restored to its original value by the final patch pass. -/
theorem C1_round_trip (db : DB) (T : Int) (hwf : WF db)
    (t0 : TenantRow) (ht : t0 ∈ db.tenant) (hid : t0.id = some T) :
    ∃ td db',
      collect_all_tenant_data db T = .ok td ∧
      merge_tenant_data db td (some T) = .ok (none, db') ∧
      lookup_by (fun t => t.id) db'.tenant (some T) = some t0 ∧
      (∀ r ∈ td.context, lookup_by (fun x => x.id) db'.context r.id = some r) ∧
      (∀ r ∈ td.field, lookup_by (fun x => x.id) db'.field r.id = some r) ∧
      (∀ r ∈ td.user, lookup_by (fun x => x.id) db'.user r.id = some r) ∧
      (∀ r ∈ td.questionaire,
        lookup_by (fun x => x.id) db'.questionaire r.id = some r) ∧
      (∀ r ∈ td.submissionstatus,
        lookup_by (fun x => x.id) db'.submissionstatus r.id = some r) ∧
      (∀ r ∈ td.internaltip,
        lookup_by (fun x => x.id) db'.internaltip r.id = some r) ∧
      (∀ r ∈ td.archivedschema,
        lookup_by (fun x => x.hash) db'.archivedschema r.hash = some r) ∧
      (∀ r ∈ td.fieldanswergroup,
        lookup_by (fun x => x.id) db'.fieldanswergroup r.id = some r) ∧
      (∀ r ∈ td.internalfile,
        lookup_by (fun x => x.id) db'.internalfile r.id = some r) ∧
      (∀ r ∈ td.receiverfile,
        lookup_by (fun x => x.id) db'.receiverfile r.id = some r) ∧
      (∀ r ∈ td.receivertip,
        lookup_by (fun x => x.id) db'.receivertip r.id = some r) ∧
      (∀ r ∈ td.message, lookup_by (fun x => x.id) db'.message r.id = some r) ∧
      (∀ r ∈ td.whistleblowerfile,
        lookup_by (fun x => x.id) db'.whistleblowerfile r.id = some r) ∧
      (∀ fa ∈ td.fieldanswer,
        lookup_by (fun x => x.id) db'.fieldanswer fa.id = some fa) := by
  classical
  have hdetT : PkDet (fun t : TenantRow => t.id) db.tenant :=
    pkdet_of_nodup_map hwf.tenant_n
  have hfind : db.tenant.find? (fun t => decide (t.id = some T)) = some t0 := by
    have hl := lookup_by_self ht hdetT
    have hl' : lookup_by (fun t : TenantRow => t.id) db.tenant (some T) = some t0 := by
      rw [← hid]
      exact hl
    exact hl'
  have hcol : collect_all_tenant_data db T = .ok (collected db T t0) := by
    simp [collect_all_tenant_data, hfind]
  have htt : ({ (collected db T t0).tenant with id := some T } : TenantRow) = t0 := by
    show ({ { t0 with id := some EXPORTED_TENANT_ID } with id := some T } :
      TenantRow) = t0
    cases t0 with
    | mk i lbl =>
        have hid' : i = some T := hid
        subst hid'
        rfl
  have hnull' : (rewrite_tid T (collected db T t0)).fieldanswer_nulled =
      (rewrite_tid T (collected db T t0)).fieldanswer.map
        (fun fa => { fa with fieldanswergroup_id := none }) := rfl
  have hdetF : PkDet (fun r : FieldAnswerRow => r.id)
      (rewrite_tid T (collected db T t0)).fieldanswer := by
    have hsub : ∀ x ∈ (rewrite_tid T (collected db T t0)).fieldanswer,
        x ∈ db.fieldanswer := by
      intro x hx
      exact (mem_collect_pk_relation.mp hx).1
    exact pkdet_sub hsub (pkdet_of_nodup_map hwf.fieldanswer_n)
  obtain ⟨db2, hmr, _hnext, hten, harch, hques, hctx, hfld, hitip, husr, hfag,
      hifl, hrtp, hrfl, hmsg, hwbf, _hsst, hfa⟩ :=
    merge_replay_spec
      { db with tenant := (upsert (fun t => t.id) db.tenant
          { (collected db T t0).tenant with id := some T }) }
      (rewrite_tid T (collected db T t0)) hnull' hdetF
  have hmerge : merge_tenant_data db (collected db T t0) (some T) =
      .ok (none, db2) := by
    show (merge_replay
        { db with tenant := (upsert (fun t => t.id) db.tenant
            { (collected db T t0).tenant with id := some T }) }
        (rewrite_tid T (collected db T t0))).map
        (fun d => ((none : Option Int), d)) = _
    rw [hmr]
    rfl
  refine ⟨collected db T t0, db2, hcol, hmerge, ?_, ?_, ?_, ?_, ?_, ?_, ?_, ?_,
      ?_, ?_, ?_, ?_, ?_, ?_, hfa⟩
  · rw [hten, htt]
    have := lookup_by_upsert (fun t : TenantRow => t.id) db.tenant t0 (some T)
    rw [hid] at this
    simpa using this
  · intro r hr
    have h2 : db2.context =
        merge_rows (fun x : ContextRow => x.id) db.context (collect_context db T) := by
      rw [hctx]
      show merge_rows _ db.context
        ((collect_context db T).map (fun x => { x with tid := T })) = _
      rw [collect_context_settid]
    rw [h2]
    exact lookup_merge_of_sub (fun x hx => (List.mem_filter.mp hx).1)
      hwf.context_n r hr
  · intro r hr
    have h2 : db2.field =
        merge_rows (fun x : FieldRow => x.id) db.field (collect_field db T) := by
      rw [hfld]
      show merge_rows _ db.field
        ((collect_field db T).map (fun x => { x with tid := T })) = _
      rw [collect_field_settid]
    rw [h2]
    exact lookup_merge_of_sub (fun x hx => (List.mem_filter.mp hx).1)
      hwf.field_n r hr
  · intro r hr
    have h2 : db2.user =
        merge_rows (fun x : UserRow => x.id) db.user (collect_user db T) := by
      rw [husr]
      show merge_rows _ db.user
        ((collect_user db T).map (fun x => { x with tid := T })) = _
      rw [collect_user_settid]
    rw [h2]
    exact lookup_merge_of_sub (fun x hx => (List.mem_filter.mp hx).1)
      hwf.user_n r hr
  · intro r hr
    have h2 : db2.questionaire =
        merge_rows (fun x : QuestionaireRow => x.id) db.questionaire
          (collect_questionaire db T) := by
      rw [hques]
      show merge_rows _ db.questionaire
        ((collect_questionaire db T).map (fun x => { x with tid := T })) = _
      rw [collect_questionaire_settid]
    rw [h2]
    exact lookup_merge_of_sub (fun x hx => (List.mem_filter.mp hx).1)
      hwf.questionaire_n r hr
  · intro r hr
    have h2 : db2.submissionstatus =
        merge_rows (fun x : SubmissionStatusRow => x.id) db.submissionstatus
          (collect_submissionstatus db T) := by
      rw [_hsst]
      show merge_rows _ db.submissionstatus
        ((collect_submissionstatus db T).map (fun x => { x with tid := T })) = _
      rw [collect_submissionstatus_settid]
    rw [h2]
    exact lookup_merge_of_sub (fun x hx => (List.mem_filter.mp hx).1)
      hwf.submissionstatus_n r hr
  · intro r hr
    have h2 : db2.internaltip =
        merge_rows (fun x : InternalTipRow => x.id) db.internaltip
          (collect_internaltip db T) := by
      rw [hitip]
      show merge_rows _ db.internaltip
        ((collect_internaltip db T).map (fun x => { x with tid := T })) = _
      rw [collect_internaltip_settid]
    rw [h2]
    exact lookup_merge_of_sub (fun x hx => (List.mem_filter.mp hx).1)
      hwf.internaltip_n r hr
  · intro r hr
    rw [harch]
    exact lookup_merge_of_sub
      (fun x hx => (mem_collect_pk_relation.mp hx).1)
      hwf.archivedschema_n r hr
  · intro r hr
    rw [hfag]
    exact lookup_merge_of_sub
      (fun x hx => (mem_collect_pk_relation.mp hx).1)
      hwf.fieldanswergroup_n r hr
  · intro r hr
    rw [hifl]
    exact lookup_merge_of_sub
      (fun x hx => (mem_collect_pk_relation.mp hx).1)
      hwf.internalfile_n r hr
  · intro r hr
    rw [hrfl]
    exact lookup_merge_of_sub
      (fun x hx => (mem_collect_pk_relation.mp hx).1)
      hwf.receiverfile_n r hr
  · intro r hr
    rw [hrtp]
    exact lookup_merge_of_sub
      (fun x hx => (mem_collect_pk_relation.mp hx).1)
      hwf.receivertip_n r hr
  · intro r hr
    rw [hmsg]
    exact lookup_merge_of_sub
      (fun x hx => (mem_collect_pk_relation.mp hx).1)
      hwf.message_n r hr
  · intro r hr
    rw [hwbf]
    exact lookup_merge_of_sub
      (fun x hx => (mem_collect_pk_relation.mp hx).1)
      hwf.whistleblowerfile_n r hr

end ImportExport

namespace ImportExport

/-- C1 witness: the round trip evaluated on a concrete database with a
fieldanswer/fieldanswergroup cycle, under the tenant's own id 3. -/
theorem C1_round_trip_witness :
    ∃ td db',
      collect_all_tenant_data fixture_c1_db 3 = .ok td ∧
      merge_tenant_data fixture_c1_db td (some 3) = .ok (none, db') ∧
      (∀ fa ∈ td.fieldanswer,
        lookup_by (fun x => x.id) db'.fieldanswer fa.id = some fa) := by
  obtain ⟨td, db', h1, h2, _, _, _, _, _, _, _, _, _, _, _, _, _, _, hfa⟩ :=
    C1_round_trip fixture_c1_db 3 (by constructor <;> decide)
      { id := some 3, label := "W" } (by decide) rfl
  exact ⟨td, db', h1, h2, hfa⟩

/-- Inversion of a successful replay: the patch pass succeeded and the
result is the per-table fold. -/
theorem merge_replay_ok_inv {db : DB} {td : TenantData} {d : DB}
    (h : merge_replay db td = .ok d) :
    ∃ fas, patch_fieldanswers
        (merge_rows (fun r => r.id) db.fieldanswer td.fieldanswer_nulled)
        td.fieldanswer = .ok fas ∧
      d = { db with
        archivedschema :=
          merge_rows (fun r => r.hash) db.archivedschema td.archivedschema
        questionaire := merge_rows (fun r => r.id) db.questionaire td.questionaire
        context := merge_rows (fun r => r.id) db.context td.context
        field := merge_rows (fun r => r.id) db.field td.field
        internaltip := merge_rows (fun r => r.id) db.internaltip td.internaltip
        user := merge_rows (fun r => r.id) db.user td.user
        fieldanswer := fas
        fieldanswergroup :=
          merge_rows (fun r => r.id) db.fieldanswergroup td.fieldanswergroup
        internalfile := merge_rows (fun r => r.id) db.internalfile td.internalfile
        receivertip := merge_rows (fun r => r.id) db.receivertip td.receivertip
        receiverfile := merge_rows (fun r => r.id) db.receiverfile td.receiverfile
        message := merge_rows (fun r => r.id) db.message td.message
        whistleblowerfile :=
          merge_rows (fun r => r.id) db.whistleblowerfile td.whistleblowerfile
        submissionstatus :=
          merge_rows (fun r => r.id) db.submissionstatus td.submissionstatus } := by
  rw [merge_replay_unfold] at h
  cases hp : patch_fieldanswers
      (merge_rows (fun r => r.id) db.fieldanswer td.fieldanswer_nulled)
      td.fieldanswer with
  | error e => rw [hp] at h; cases h
  | ok fas =>
      rw [hp] at h
      exact ⟨fas, rfl, (Except.ok.inj h).symm⟩

/-- Inversion of merge_tenant_data with an explicit tenant id. -/
theorem merge_tenant_data_some_inv {db : DB} {td : TenantData} {t : Int}
    {out : Option Int × DB}
    (h : merge_tenant_data db td (some t) = .ok out) :
    ∃ d, merge_replay
        { db with tenant := (upsert (fun x => x.id) db.tenant
            { td.tenant with id := some t }) }
        (rewrite_tid t td) = .ok d ∧ out = (none, d) := by
  have h' : (merge_replay
      { db with tenant := (upsert (fun x => x.id) db.tenant
          { td.tenant with id := some t }) }
      (rewrite_tid t td)).map (fun d => ((none : Option Int), d)) = .ok out := h
  cases hmr : merge_replay
      { db with tenant := (upsert (fun x => x.id) db.tenant
          { td.tenant with id := some t }) }
      (rewrite_tid t td) with
  | error e => rw [hmr] at h'; simp [Except.map] at h'
  | ok d =>
      rw [hmr] at h'
      simp only [Except.map] at h'
      exact ⟨d, rfl, (Except.ok.inj h').symm⟩

/-- Inversion of merge_tenant_data with no explicit tenant id. -/
theorem merge_tenant_data_none_inv {db : DB} {td : TenantData}
    {out : Option Int × DB}
    (h : merge_tenant_data db td none = .ok out) :
    ∃ d, merge_replay
        { db with
          tenant := (upsert (fun x => x.id) db.tenant
            { td.tenant with id := some db.tenantNextId })
          tenantNextId := db.tenantNextId + 1 }
        (rewrite_tid db.tenantNextId td) = .ok d ∧ out = (none, d) := by
  have h' : (merge_replay
      { db with
        tenant := (upsert (fun x => x.id) db.tenant
          { td.tenant with id := some db.tenantNextId })
        tenantNextId := db.tenantNextId + 1 }
      (rewrite_tid db.tenantNextId td)).map
      (fun d => ((none : Option Int), d)) = .ok out := h
  cases hmr : merge_replay
      { db with
        tenant := (upsert (fun x => x.id) db.tenant
          { td.tenant with id := some db.tenantNextId })
        tenantNextId := db.tenantNextId + 1 }
      (rewrite_tid db.tenantNextId td) with
  | error e => rw [hmr] at h'; simp [Except.map] at h'
  | ok d =>
      rw [hmr] at h'
      simp only [Except.map] at h'
      exact ⟨d, rfl, (Except.ok.inj h').symm⟩

end ImportExport

namespace ImportExport

/-- C2 amended: merge_tenant_data resolves the tenant id exactly as the
claim describes — with no explicit id the snapshot tenant row's id is
cleared, the row is merged, and the destination-assigned autoincrement
id is captured and used; with an explicit id the tenant row is forced to
it and upserted — and the resolved id is written into every replayed
row's tenant column; but the call's Python return value is None, not the
resolved id. -/
theorem C2_merge_resolution (db : DB) (td : TenantData) :
    (∀ t out, merge_tenant_data db td (some t) = .ok out →
      out.1 = none ∧
      lookup_by (fun x => x.id) out.2.tenant (some t) =
        some { td.tenant with id := some t } ∧
      (PkDet (fun x : ContextRow => x.id) td.context →
        ∀ r ∈ td.context,
          lookup_by (fun x => x.id) out.2.context r.id =
            some { r with tid := t })) ∧
    (∀ out, merge_tenant_data db td none = .ok out →
      out.1 = none ∧
      out.2.tenantNextId = db.tenantNextId + 1 ∧
      lookup_by (fun x => x.id) out.2.tenant (some db.tenantNextId) =
        some { td.tenant with id := some db.tenantNextId } ∧
      (PkDet (fun x : ContextRow => x.id) td.context →
        ∀ r ∈ td.context,
          lookup_by (fun x => x.id) out.2.context r.id =
            some { r with tid := db.tenantNextId })) := by
  have hten : ∀ t : Int,
      lookup_by (fun x : TenantRow => x.id)
        (upsert (fun x => x.id) db.tenant { td.tenant with id := some t })
        (some t) =
      some { td.tenant with id := some t } := by
    intro t
    have h := lookup_by_upsert (fun x : TenantRow => x.id) db.tenant
      { td.tenant with id := some t } (some t)
    simpa using h
  have hctx : ∀ t : Int,
      PkDet (fun x : ContextRow => x.id) td.context →
      ∀ r ∈ td.context,
        lookup_by (fun x : ContextRow => x.id)
          (merge_rows (fun x => x.id) db.context
            (td.context.map (fun r => { r with tid := t }))) r.id =
          some { r with tid := t } := by
    intro t hdet r hr
    have hdet' : PkDet (fun x : ContextRow => x.id)
        (td.context.map (fun r => { r with tid := t })) := by
      intro x hx y hy hxy
      obtain ⟨a, ha, rfl⟩ := List.mem_map.mp hx
      obtain ⟨b, hb, rfl⟩ := List.mem_map.mp hy
      have hab : a = b := hdet a ha b hb (by simpa using hxy)
      rw [hab]
    have hmem : ({ r with tid := t } : ContextRow) ∈
        td.context.map (fun r => { r with tid := t }) :=
      List.mem_map_of_mem _ hr
    exact lookup_by_merge_rows_self hmem hdet'
  constructor
  · intro t out h
    obtain ⟨d, hmr, rfl⟩ := merge_tenant_data_some_inv h
    obtain ⟨fas, _hp, rfl⟩ := merge_replay_ok_inv hmr
    exact ⟨rfl, hten t, fun hdet r hr => hctx t hdet r hr⟩
  · intro out h
    obtain ⟨d, hmr, rfl⟩ := merge_tenant_data_none_inv h
    obtain ⟨fas, _hp, rfl⟩ := merge_replay_ok_inv hmr
    exact ⟨rfl, rfl, hten db.tenantNextId,
      fun hdet r hr => hctx db.tenantNextId hdet r hr⟩

/-- C2 counterexample: merging a concrete snapshot under the explicit
tenant id 5 succeeds, yet the call's value is None, not 5. -/
theorem C2_merge_returns_none_counterexample :
    mergeRetval emptyDB (snapshotOfTenant { id := some 0, label := "t" })
        (some 5) = some none ∧
    some (none : Option Int) ≠ some (some (5 : Int)) := by
  exact ⟨rfl, by decide⟩

/-- C2 witness: the amended behaviour evaluated at a concrete merge. -/
theorem C2_merge_resolution_witness :
    ∃ out, merge_tenant_data emptyDB
        (snapshotOfTenant { id := some 0, label := "t" }) (some 5) = .ok out ∧
      out.1 = none ∧
      lookup_by (fun x : TenantRow => x.id) out.2.tenant (some 5) =
        some { id := some 5, label := "t" } := by
  have hrun : merge_tenant_data emptyDB
      (snapshotOfTenant { id := some 0, label := "t" }) (some 5) =
      .ok (none, { emptyDB with tenant := [{ id := some 5, label := "t" }] }) := by
    rfl
  have h := (C2_merge_resolution emptyDB
      (snapshotOfTenant { id := some 0, label := "t" })).1 5 _ hrun
  exact ⟨_, hrun, h.1, h.2.1⟩

end ImportExport

namespace ImportExport

/-- The tarball built by one process_files_for_tarball pass over
receiverfile rows: exactly the rows whose blob exists are appended,
independently of their status. -/
theorem process_rf_eq (fsIsFile : String → Bool) (tar : List TarEntry)
    (fileset : List ReceiverFileRow) :
    process_files_for_tarball_rf fsIsFile tar fileset =
      tar ++ (fileset.filter (fun fo => fsIsFile fo.filename)).map
        (fun fo => TarEntry.attachment fo.filename) := by
  induction fileset generalizing tar with
  | nil => simp [process_files_for_tarball_rf]
  | cons fo rest ih =>
      by_cases hfs : fsIsFile fo.filename
      · have hstep : process_files_for_tarball_rf fsIsFile tar (fo :: rest) =
            process_files_for_tarball_rf fsIsFile
              (tar ++ [TarEntry.attachment fo.filename]) rest := by
          simp [process_files_for_tarball_rf, hfs]
        rw [hstep, ih]
        simp [List.filter_cons, hfs]
      · have hstep : process_files_for_tarball_rf fsIsFile tar (fo :: rest) =
            process_files_for_tarball_rf fsIsFile tar rest := by
          simp [process_files_for_tarball_rf, hfs]
        rw [hstep, ih]
        simp [List.filter_cons, hfs]

/-- Same fact for the whistleblowerfile pass. -/
theorem process_wb_eq (fsIsFile : String → Bool) (tar : List TarEntry)
    (fileset : List WhistleblowerFileRow) :
    process_files_for_tarball_wb fsIsFile tar fileset =
      tar ++ (fileset.filter (fun fo => fsIsFile fo.filename)).map
        (fun fo => TarEntry.attachment fo.filename) := by
  induction fileset generalizing tar with
  | nil => simp [process_files_for_tarball_wb]
  | cons fo rest ih =>
      by_cases hfs : fsIsFile fo.filename
      · have hstep : process_files_for_tarball_wb fsIsFile tar (fo :: rest) =
            process_files_for_tarball_wb fsIsFile
              (tar ++ [TarEntry.attachment fo.filename]) rest := by
          simp [process_files_for_tarball_wb, hfs]
        rw [hstep, ih]
        simp [List.filter_cons, hfs]
      · have hstep : process_files_for_tarball_wb fsIsFile tar (fo :: rest) =
            process_files_for_tarball_wb fsIsFile tar rest := by
          simp [process_files_for_tarball_wb, hfs]
        rw [hstep, ih]
        simp [List.filter_cons, hfs]

/-- C3 counterexample: a receiverfile row whose status is "encrypted"
(not "reference") and whose backing blob is missing from the attachments
directory does not make packaging fail: the export succeeds and the
archive merely omits the attachment entry. -/
theorem C3_missing_blob_counterexample :
    fixture_c3_db.receiverfile.map (fun r => r.status) = ["encrypted"] ∧
    (create_export_tarball fixture_c3_db (fun _ => false) 1).result =
      .ok [TarEntry.export_format "1", TarEntry.database] := by
  exact ⟨rfl, rfl⟩

/-- C3 amended: a missing backing blob never fails packaging.  Every
file-owning row whose blob is absent is skipped, whatever its status —
the status == reference test only selects whether a skip message is
logged — and the export succeeds whenever collection and the scratch
database merge succeed. -/
theorem C3_missing_blob_amended (fsIsFile : String → Bool) (tar : List TarEntry)
    (rfset : List ReceiverFileRow) (wbset : List WhistleblowerFileRow)
    (db : DB) (tid : Int) :
    process_files_for_tarball_rf fsIsFile tar rfset =
      tar ++ (rfset.filter (fun fo => fsIsFile fo.filename)).map
        (fun fo => TarEntry.attachment fo.filename) ∧
    process_files_for_tarball_wb fsIsFile tar wbset =
      tar ++ (wbset.filter (fun fo => fsIsFile fo.filename)).map
        (fun fo => TarEntry.attachment fo.filename) ∧
    ((∃ td, collect_all_tenant_data db tid = .ok td ∧
        ∃ sdb, write_tenant_to_fresh_db td = .ok sdb) →
      (create_export_tarball db fsIsFile tid).result.isOk = true) := by
  refine ⟨process_rf_eq fsIsFile tar rfset, process_wb_eq fsIsFile tar wbset, ?_⟩
  rintro ⟨td, hc, sdb, hw⟩
  simp [create_export_tarball, hc, hw, Except.isOk, Except.toBool]

/-- C3 witness: the export always succeeds on the concrete database with
a missing non-reference blob. -/
theorem C3_missing_blob_witness :
    (create_export_tarball fixture_c3_db (fun _ => false) 1).result.isOk = true := by
  exact (C3_missing_blob_amended (fun _ => false) [] [] [] fixture_c3_db 1).2.2
    ⟨_, rfl, _, rfl⟩

/-- C4 counterexample: an archive with no EXPORT_FORMAT member and a
marker value other than "1" imports successfully and mutates the
destination — the unpacker never validates the marker. -/
theorem C4_marker_ignored_counterexample :
    fixture_c4_tb.has_marker = false ∧
    fixture_c4_tb.marker ≠ "1" ∧
    (read_import_tarball emptyDB fixture_c4_tb [] fixture_gen 10).result.isOk
      = true ∧
    (read_import_tarball emptyDB fixture_c4_tb [] fixture_gen 10).dest ≠
      emptyDB := by
  refine ⟨rfl, by decide, rfl, by decide⟩

/-- C4 amended: the unpacker performs no format-marker validation at all
— its behaviour is independent of the marker's presence and contents —
while a missing bundled database file does fail the import before any
destination mutation, with the operational error raised when the tenant
query runs against the implicitly created empty database. -/
theorem C4_no_marker_validation (dest : DB) (tb : Tarball)
    (live : List String) (gen : Nat → String) (lim : Nat) (m : String) (b : Bool) :
    read_import_tarball dest { tb with marker := m, has_marker := b } live gen lim
      = read_import_tarball dest tb live gen lim ∧
    (tb.valid = true → tb.has_db = false →
      (read_import_tarball dest tb live gen lim).result =
        .error .operationalError ∧
      (read_import_tarball dest tb live gen lim).dest = dest) := by
  constructor
  · cases tb
    rfl
  · intro hv hdb
    constructor
    · simp [read_import_tarball, hv, hdb]
    · simp [read_import_tarball, hv, hdb]

/-- C4 witness: the missing-database branch evaluated concretely. -/
theorem C4_no_marker_validation_witness :
    (read_import_tarball emptyDB { fixture_c4_tb with has_db := false } []
        fixture_gen 10).result = .error .operationalError := by
  exact ((C4_no_marker_validation emptyDB { fixture_c4_tb with has_db := false }
      [] fixture_gen 10 "x" true).2 rfl rfl).1

/-- C5 amended: collecting a tenant id with no Tenant row aborts before
any write and returns no partial snapshot, but the failure is the
AttributeError raised by dereferencing the missing row (tenant.label on
None), not a dedicated EntityNotFound error. -/
theorem C5_absent_tenant (db : DB) (tid : Int)
    (h : ∀ t ∈ db.tenant, t.id ≠ some tid) :
    collect_all_tenant_data db tid = .error .attributeError := by
  have hfind : db.tenant.find? (fun t => decide (t.id = some tid)) = none := by
    rw [List.find?_eq_none]
    intro x hx
    simp [h x hx]
  simp [collect_all_tenant_data, hfind]

/-- C5 counterexample: on a database with no tenants, collect fails with
the attribute error, which is not the specified EntityNotFound error. -/
theorem C5_error_kind_counterexample :
    collect_all_tenant_data emptyDB 7 = .error .attributeError ∧
    (Except.error PyError.attributeError : Except PyError TenantData) ≠
      .error .entityNotFound := by
  exact ⟨rfl, by decide⟩

/-- C5 witness: the amended failure evaluated concretely. -/
theorem C5_absent_tenant_witness :
    collect_all_tenant_data emptyDB 7 = .error .attributeError :=
  C5_absent_tenant emptyDB 7 (fun t ht => absurd ht (List.not_mem_nil t))

end ImportExport

namespace ImportExport

/-- C6 counterexample: two tips sharing a questionnaire hash make the
collector fetch the same archived schema row twice — the hash key list
is not taken distinct, so a row appears more than once in the
snapshot. -/
theorem C6_duplicate_schema_counterexample :
    questionairehash_ids fixture_c6_db 1 = [5, 5] ∧
    collect_archivedschema fixture_c6_db 1 =
      [{ hash := 5, payload := "s" }, { hash := 5, payload := "s" }] ∧
    ¬ (collect_archivedschema fixture_c6_db 1).Nodup := by
  exact ⟨rfl, rfl, by decide⟩

/-- C6 amended: each transitively-scoped entity type is resolved by one
filter query per key value; the per-key queries are disjoint whenever
the key list is duplicate-free, so in a well-formed database every
transitive row set is duplicate-free — with the single exception of
archivedschema, whose key list is the per-tip questionnaire hash list
taken verbatim (not distinct), so its rows are duplicate-free only when
that hash list is.  (For message — and likewise identityaccessrequest in
the source — the filter column is the row's own primary id drawn from
the receiver-tip id set, not a parent foreign key.) -/
theorem C6_disjoint_queries (db : DB) (tid : Int) (hwf : WF db) :
    (collect_fieldanswer db tid).Nodup ∧
    (collect_fieldanswergroup db tid).Nodup ∧
    (collect_internalfile db tid).Nodup ∧
    (collect_receiverfile db tid).Nodup ∧
    (collect_receivertip db tid).Nodup ∧
    (collect_message db tid).Nodup ∧
    (collect_whistleblowerfile db tid).Nodup ∧
    ((questionairehash_ids db tid).Nodup → (collect_archivedschema db tid).Nodup) ∧
    questionairehash_ids db tid =
      (collect_internaltip db tid).map (fun r => r.questionnaire_hash) := by
  have hit : (internaltip_ids db tid).Nodup :=
    List.Nodup.sublist ((List.filter_sublist db.internaltip).map _)
      hwf.internaltip_n
  have hfa : (collect_fieldanswer db tid).Nodup :=
    nodup_collect_pk_relation (List.Nodup.of_map _ hwf.fieldanswer_n) hit
  have hfa_ids : (fieldanswer_ids db tid).Nodup := by
    show ((collect_pk_relation db.fieldanswer (internaltip_ids db tid)
        (fun r : FieldAnswerRow => r.internaltip_id)).map
        (fun r : FieldAnswerRow => r.id)).Nodup
    exact nodup_map_collect_pk_relation (fun r : FieldAnswerRow => r.id) hwf.fieldanswer_n hit
  have hfag : (collect_fieldanswergroup db tid).Nodup :=
    nodup_collect_pk_relation (List.Nodup.of_map _ hwf.fieldanswergroup_n) hfa_ids
  have hifl : (collect_internalfile db tid).Nodup :=
    nodup_collect_pk_relation (List.Nodup.of_map _ hwf.internalfile_n) hit
  have hifl_ids : (internalfile_ids db tid).Nodup := by
    show ((collect_pk_relation db.internalfile (internaltip_ids db tid)
        (fun r : InternalFileRow => r.internaltip_id)).map
        (fun r : InternalFileRow => r.id)).Nodup
    exact nodup_map_collect_pk_relation (fun r : InternalFileRow => r.id) hwf.internalfile_n hit
  have hrfl : (collect_receiverfile db tid).Nodup :=
    nodup_collect_pk_relation (List.Nodup.of_map _ hwf.receiverfile_n) hifl_ids
  have hrtp : (collect_receivertip db tid).Nodup :=
    nodup_collect_pk_relation (List.Nodup.of_map _ hwf.receivertip_n) hit
  have hrtp_ids : (receivertip_ids db tid).Nodup := by
    show ((collect_pk_relation db.receivertip (internaltip_ids db tid)
        (fun r : ReceiverTipRow => r.internaltip_id)).map
        (fun r : ReceiverTipRow => r.id)).Nodup
    exact nodup_map_collect_pk_relation (fun r : ReceiverTipRow => r.id) hwf.receivertip_n hit
  have hmsg : (collect_message db tid).Nodup :=
    nodup_collect_pk_relation (List.Nodup.of_map _ hwf.message_n) hrtp_ids
  have hwbf : (collect_whistleblowerfile db tid).Nodup :=
    nodup_collect_pk_relation (List.Nodup.of_map _ hwf.whistleblowerfile_n)
      hrtp_ids
  refine ⟨hfa, hfag, hifl, hrfl, hrtp, hmsg, hwbf, ?_, rfl⟩
  intro hhash
  exact nodup_collect_pk_relation (List.Nodup.of_map _ hwf.archivedschema_n) hhash

/-- C6 witness: the duplicate-free guarantees evaluated on a concrete
well-formed database. -/
theorem C6_disjoint_queries_witness :
    (collect_fieldanswer fixture_c1_db 3).Nodup ∧
    (collect_receiverfile fixture_c1_db 3).Nodup :=
  ⟨(C6_disjoint_queries fixture_c1_db 3 (by constructor <;> decide)).1,
   (C6_disjoint_queries fixture_c1_db 3 (by constructor <;> decide)).2.2.2.1⟩

end ImportExport

namespace ImportExport

/-- C7 counterexample: with one live-name collision on an encrypted row,
the unpacker's retry does not recover: the recursive call re-reads the
already-reassigned filename as its copy source and fails with
FileNotFoundError instead of retrying the original blob. -/
theorem C7_collision_not_recovered_counterexample :
    randomize_filename_and_copy fixture_gen 10 0 fixture_c7_st "orig"
      "encrypted" = .error .fileNotFoundError := by
  rfl

/-- C7 amended: on a live-name collision the unpacker regenerates the
name by direct recursion with no retry cap: when every regenerated name
collides the recursion consumes the whole interpreter recursion budget,
however large, and the operation fails with RecursionError; moreover the
retry re-reads the already-reassigned filename as its copy source, so a
single collision on a non-reference row whose regenerated name is not in
the scratch folder fails with FileNotFoundError rather than
recovering. -/
theorem C7_unbounded_retry (gen : Nat → String) :
    (∀ n ctr st orig,
      (∀ j, j < n → ("pgp_encrypted-" ++ gen (ctr + j)) ∈ st.live) →
      randomize_filename_and_copy gen n ctr st orig "encrypted" =
        .error .recursionError) ∧
    (∀ fuel ctr st orig,
      ("pgp_encrypted-" ++ gen ctr) ∈ st.live →
      ("pgp_encrypted-" ++ gen (ctr + 1)) ∉ st.live →
      ("pgp_encrypted-" ++ gen ctr) ∉ st.scratch →
      randomize_filename_and_copy gen (fuel + 2) ctr st orig "encrypted" =
        .error .fileNotFoundError) := by
  constructor
  · intro n
    induction n with
    | zero => intro ctr st orig _; rfl
    | succ n ih =>
        intro ctr st orig h
        have h0 : ("pgp_encrypted-" ++ gen ctr) ∈ st.live := by
          have := h 0 (Nat.succ_pos n)
          simpa using this
        have hrec := ih (ctr + 1) st ("pgp_encrypted-" ++ gen ctr)
          (fun j hj => by
            have hh := h (j + 1) (Nat.succ_lt_succ hj)
            have heq : ctr + (j + 1) = ctr + 1 + j := by omega
            rw [heq] at hh
            exact hh)
        simp only [randomize_filename_and_copy]
        simp [h0, hrec]
  · intro fuel ctr st orig h1 h2 h3
    simp only [randomize_filename_and_copy]
    simp [h1, h2, h3]

/-- C7 witness: both amended behaviours evaluated concretely, with a
fully colliding live set of size 3 and with a single collision. -/
theorem C7_unbounded_retry_witness :
    randomize_filename_and_copy fixture_gen 3 0
      { live := colliding_live fixture_gen 3, scratch := ["orig"] } "orig"
      "encrypted" = .error .recursionError ∧
    randomize_filename_and_copy fixture_gen 5 0 fixture_c7_st "orig"
      "encrypted" = .error .fileNotFoundError := by
  constructor
  · exact (C7_unbounded_retry fixture_gen).1 3 0
      { live := colliding_live fixture_gen 3, scratch := ["orig"] } "orig"
      (by decide)
  · exact (C7_unbounded_retry fixture_gen).2 3 0 fixture_c7_st "orig"
      (by decide) (by decide) (by decide)

/-- The unpacker ends in exactly one of two outcome shapes: a failure
outcome whose trace is the finally-block trace and whose destination is
untouched, or the success outcome whose trace includes the merge and the
secure deletion of the scratch database. -/
theorem read_import_tarball_cases (dest : DB) (tb : Tarball)
    (live : List String) (gen : Nat → String) (lim : Nat) :
    (∃ e l2, read_import_tarball dest tb live gen lim =
      { result := .error e, dest := dest, live := l2,
        trace := [Ev.mkdtemp, Ev.rmtree, Ev.fix_permissions] }) ∨
    (∃ d l2, read_import_tarball dest tb live gen lim =
      { result := .ok d, dest := d, live := l2,
        trace := [Ev.mkdtemp, Ev.merged, Ev.secure_delete_db, Ev.rmtree,
                  Ev.fix_permissions] }) := by
  unfold read_import_tarball
  dsimp only
  by_cases hv : tb.valid = false
  · rw [if_pos hv]
    exact Or.inl ⟨_, _, rfl⟩
  · rw [if_neg hv]
    by_cases hdb : tb.has_db = true
    · rw [if_pos hdb]
      cases hc : collect_all_tenant_data tb.db EXPORTED_TENANT_ID with
      | error e =>
          exact Or.inl ⟨_, _, rfl⟩
      | ok td =>
          dsimp only
          rcases hr : copy_rows_rf gen lim 0 { live := live, scratch := tb.files }
              td.receiverfile with e | ⟨rfs, ctr1, st1⟩
          · exact Or.inl ⟨_, _, rfl⟩
          · dsimp only
            rcases hw : copy_rows_wb gen lim ctr1 st1 td.whistleblowerfile with
                e | ⟨wbs, ctr2, st2⟩
            · exact Or.inl ⟨_, _, rfl⟩
            · dsimp only
              rcases hm : merge_tenant_data dest
                  { td with receiverfile := rfs, whistleblowerfile := wbs }
                  none with e | ⟨rv, dest'⟩
              · exact Or.inl ⟨_, _, rfl⟩
              · exact Or.inr ⟨_, _, rfl⟩
    · rw [if_neg hdb]
      exact Or.inl ⟨_, _, rfl⟩

/-- Every execution of the unpacker removes the scratch directory: all
its exit paths end in the finally block. -/
theorem rmtree_in_import_trace (dest : DB) (tb : Tarball) (live : List String)
    (gen : Nat → String) (lim : Nat) :
    Ev.rmtree ∈ (read_import_tarball dest tb live gen lim).trace := by
  rcases read_import_tarball_cases dest tb live gen lim with
      ⟨e, l2, h⟩ | ⟨d, l2, h⟩ <;>
    rw [h] <;> simp

/-- C8: in both the packager and the unpacker, whenever the private
scratch directory has been created (mkdtemp appears in the trace), it is
removed again before the call returns or propagates an error (rmtree
appears in the trace), on success and on every failure path alike. -/
theorem C8_scratch_cleanup (db : DB) (fsIsFile : String → Bool) (tid : Int)
    (dest : DB) (tb : Tarball) (live : List String) (gen : Nat → String)
    (lim : Nat) :
    (Ev.mkdtemp ∈ (create_export_tarball db fsIsFile tid).trace →
      Ev.rmtree ∈ (create_export_tarball db fsIsFile tid).trace) ∧
    (Ev.mkdtemp ∈ (read_import_tarball dest tb live gen lim).trace →
      Ev.rmtree ∈ (read_import_tarball dest tb live gen lim).trace) := by
  constructor
  · unfold create_export_tarball
    cases collect_all_tenant_data db tid <;> simp
  · intro _
    exact rmtree_in_import_trace dest tb live gen lim

/-- C8 witness: cleanup observed on a concrete export and a concrete
import. -/
theorem C8_scratch_cleanup_witness :
    Ev.rmtree ∈ (create_export_tarball fixture_c3_db (fun _ => false) 1).trace ∧
    Ev.rmtree ∈ (read_import_tarball emptyDB fixture_c4_tb [] fixture_gen
      10).trace := by
  constructor
  · exact (C8_scratch_cleanup fixture_c3_db (fun _ => false) 1 emptyDB
      fixture_c4_tb [] fixture_gen 10).1 (by decide)
  · exact (C8_scratch_cleanup fixture_c3_db (fun _ => false) 1 emptyDB
      fixture_c4_tb [] fixture_gen 10).2 (by decide)

/-- C9: the secure overwrite-then-delete of the bundled scratch database
happens exactly on the successful path — after the merge into the
destination completes without raising — and on every failing path the
scratch directory is still removed but the database file is not securely
overwritten first. -/
theorem C9_secure_delete_iff_merge (dest : DB) (tb : Tarball)
    (live : List String) (gen : Nat → String) (lim : Nat) :
    (Ev.secure_delete_db ∈ (read_import_tarball dest tb live gen lim).trace ↔
      (read_import_tarball dest tb live gen lim).result.isOk = true) ∧
    ((read_import_tarball dest tb live gen lim).result.isOk = false →
      Ev.rmtree ∈ (read_import_tarball dest tb live gen lim).trace ∧
      Ev.secure_delete_db ∉ (read_import_tarball dest tb live gen lim).trace) := by
  rcases read_import_tarball_cases dest tb live gen lim with
      ⟨e, l2, h⟩ | ⟨d, l2, h⟩ <;>
    rw [h] <;> simp [Except.isOk, Except.toBool]

/-- C9 witness: secure deletion observed on a concrete successful
import, absent on a concrete failing one. -/
theorem C9_secure_delete_iff_merge_witness :
    Ev.secure_delete_db ∈
      (read_import_tarball emptyDB fixture_c4_tb [] fixture_gen 10).trace ∧
    Ev.secure_delete_db ∉
      (read_import_tarball emptyDB { fixture_c4_tb with valid := false } []
        fixture_gen 10).trace := by
  constructor
  · exact (C9_secure_delete_iff_merge emptyDB fixture_c4_tb [] fixture_gen
      10).1.mpr (by rfl)
  · exact ((C9_secure_delete_iff_merge emptyDB
      { fixture_c4_tb with valid := false } [] fixture_gen 10).2 (by rfl)).2

end ImportExport

namespace Submission

/-- Inversion of a successful create_submission: the store gained
exactly one tip, carrying the fresh id and the mark selected by
finalize. -/
theorem create_submission_shape {now : Int} {store : Store} {req : SubRequest}
    {fin : Bool} {s : Store} {tid : Nat}
    (h : create_submission now store req fin = .ok (s, tid)) :
    ∃ sub : Tip, s = { store with
        tips := store.tips ++ [sub]
        next_tip_id := store.next_tip_id + 1 } ∧
      sub.id = store.next_tip_id ∧ tid = store.next_tip_id ∧
      sub.mark = (if fin then marker.getD 0 "" else marker.getD 1 "") := by
  unfold create_submission at h
  cases hc : find_context store req.context_gus with
  | none => rw [hc] at h; cases h
  | some context =>
      rw [hc] at h
      dsimp only at h
      rcases hr : sub_import_receivers store [] req.receivers context fin with
          e | recvs
      · rw [hr] at h; cases h
      · rw [hr] at h
        dsimp only at h
        rcases hf : sub_import_files store [] req.files with e | fls
        · rw [hf] at h; cases h
        · rw [hf] at h
          dsimp only at h
          rcases hw : sub_import_fields req.wb_fields context.fields fin with
              e | wbf
          · rw [hw] at h; cases h
          · rw [hw] at h
            dsimp only at h
            injection h with h'
            injection h' with hs ht
            exact ⟨_, hs.symm, rfl, ht.symm, rfl⟩

/-- Inversion of a successful update_submission: the found tip was in
the _marker[0] state, and the store's tips were rewritten in place with
an updated row of the same id. -/
theorem update_submission_ok_inv {store : Store} {i : Nat} {req : SubRequest}
    {fin : Bool} {s : Store} {x : Nat}
    (h : update_submission store i req fin = .ok (s, x)) :
    ∃ t sub', store.tips.find? (fun y => decide (y.id = i)) = some t ∧
      t.mark = marker.getD 0 "" ∧ sub'.id = t.id ∧
      s.tips = store.tips.map (fun y => if y.id = i then sub' else y) ∧
      s.next_tip_id = store.next_tip_id := by
  unfold update_submission at h
  cases hf : store.tips.find? (fun y => decide (y.id = i)) with
  | none => rw [hf] at h; cases h
  | some t =>
      rw [hf] at h
      dsimp only at h
      by_cases hm : t.mark ≠ marker.getD 0 ""
      · rw [if_pos hm] at h; cases h
      · rw [if_neg hm] at h
        push_neg at hm
        cases hc : find_context store req.context_gus with
        | none => rw [hc] at h; cases h
        | some context =>
            rw [hc] at h
            dsimp only at h
            by_cases hcid : t.context_id ≠ context.id
            · rw [if_pos hcid] at h; cases h
            · rw [if_neg hcid] at h
              rcases hr : sub_import_receivers store t.receivers req.receivers
                  context fin with e | recvs
              · rw [hr] at h; cases h
              · rw [hr] at h
                dsimp only at h
                rcases hfl : sub_import_files store t.internalfiles req.files with
                    e | fls
                · rw [hfl] at h; cases h
                · rw [hfl] at h
                  dsimp only at h
                  rcases hw : sub_import_fields req.wb_fields context.fields fin
                      with e | wbf
                  · rw [hw] at h; cases h
                  · rw [hw] at h
                    dsimp only at h
                    injection h with h'
                    injection h' with hs hx
                    refine ⟨t, { t with
                        receivers := recvs
                        internalfiles := fls
                        wb_fields := wbf
                        mark := if fin then marker.getD 1 "" else t.mark },
                      rfl, hm, rfl, ?_, ?_⟩
                    · rw [← hs]
                    · rw [← hs]

/-- Updating an id all of whose rows are past _marker[0] never
succeeds. -/
theorem update_submission_not_ok {store : Store} {i : Nat} {req : SubRequest}
    {fin : Bool}
    (h : ∀ t ∈ store.tips, t.id = i → t.mark ≠ marker.getD 0 "") :
    ∀ s x, update_submission store i req fin ≠ .ok (s, x) := by
  intro s x hok
  obtain ⟨t, _sub', hf, hm, _, _, _⟩ := update_submission_ok_inv hok
  have hmem := List.mem_of_find?_eq_some hf
  have hid : t.id = i := by simpa using List.find?_some hf
  exact h t hmem hid hm

/-- never_updatable is preserved by every client operation. -/
theorem never_updatable_preserved (now : Int) (store : Store) (i : Nat)
    (h : never_updatable store i) (op : SubOp) :
    never_updatable (apply_op now store op) i := by
  obtain ⟨hmark, hlt⟩ := h
  cases op with
  | createOp r f =>
      dsimp only [apply_op]
      cases hc : create_submission now store r f with
      | error e => exact ⟨hmark, hlt⟩
      | ok p =>
          obtain ⟨s, tid⟩ := p
          obtain ⟨sub, hs, hsid, _, _⟩ := create_submission_shape hc
          subst hs
          constructor
          · intro t ht hti
            rcases List.mem_append.mp ht with hin | hin
            · exact hmark t hin hti
            · have : t = sub := by simpa using hin
              subst this
              exact absurd (hsid ▸ hti) (Nat.ne_of_gt hlt)
          · exact Nat.lt_succ_of_lt hlt
  | updateOp j r f =>
      dsimp only [apply_op]
      cases hu : update_submission store j r f with
      | error e => exact ⟨hmark, hlt⟩
      | ok p =>
          obtain ⟨s, x⟩ := p
          obtain ⟨t, sub', hf, hm0, hsid, htips, hnext⟩ :=
            update_submission_ok_inv hu
          have htid : t.id = j := by simpa using List.find?_some hf
          constructor
          · intro t' ht' hti
            rw [htips] at ht'
            obtain ⟨y, hy, hyeq⟩ := List.mem_map.mp ht'
            by_cases hyj : y.id = j
            · rw [if_pos hyj] at hyeq
              subst hyeq
              have hji : j = i := by
                rw [← hti, hsid, htid]
              exact absurd hm0
                (hmark t (List.mem_of_find?_eq_some hf) (htid.trans hji))
            · rw [if_neg hyj] at hyeq
              subst hyeq
              exact hmark y hy hti
          · rw [hnext]
            exact hlt

theorem never_updatable_ops (now : Int) (ops : List SubOp) :
    ∀ (store : Store) (i : Nat), never_updatable store i →
      never_updatable (apply_ops now store ops) i := by
  induction ops with
  | nil => intro store i h; exact h
  | cons op rest ih =>
      intro store i h
      exact ih (apply_op now store op) i (never_updatable_preserved now store i h op)

end Submission

namespace Submission

/-- C10: create_submission assigns the new submission's mark
InternalTip._marker[0] when finalize is true and _marker[1] when
finalize is false; update_submission raises SubmissionConcluded for
every existing submission whose mark differs from _marker[0];
consequently a submission created with finalize=false can never be
updated afterwards — by any later sequence of create/update operations —
while one created with finalize=true can. -/
theorem C10_mark_logic (now : Int) (store : Store) (req : SubRequest) :
    (∀ fin s tid, create_submission now store req fin = .ok (s, tid) →
      ∃ sub : Tip, s = { store with
          tips := store.tips ++ [sub]
          next_tip_id := store.next_tip_id + 1 } ∧
        sub.id = tid ∧
        sub.mark = (if fin then marker.getD 0 "" else marker.getD 1 "")) ∧
    (∀ i r f t, store.tips.find? (fun y => decide (y.id = i)) = some t →
      t.mark ≠ marker.getD 0 "" →
      update_submission store i r f = .error .submissionConcluded) ∧
    (∀ i, never_updatable store i →
      ∀ ops r f s2 x,
        update_submission (apply_ops now store ops) i r f ≠ .ok (s2, x)) ∧
    (∀ s tid, create_submission now store req false = .ok (s, tid) →
      (∀ t ∈ store.tips, t.id < store.next_tip_id) →
      ∀ ops r f s2 x,
        update_submission (apply_ops now s ops) tid r f ≠ .ok (s2, x)) ∧
    (∃ (st1 : Store) (tid1 : Nat) (st2 : Store) (x : Nat),
      create_submission 0 fixture_store fixture_req true = .ok (st1, tid1) ∧
      update_submission st1 tid1 fixture_req true = .ok (st2, x)) := by
  refine ⟨?_, ?_, ?_, ?_, ?_⟩
  · intro fin s tid hc
    obtain ⟨sub, hs, hsid, htid, hmark⟩ := create_submission_shape hc
    refine ⟨sub, hs, ?_, hmark⟩
    rw [hsid, htid]
  · intro i r f t hfind hmark
    unfold update_submission
    rw [hfind]
    dsimp only
    rw [if_pos hmark]
  · intro i hnu ops r f s2 x
    have h2 := never_updatable_ops now ops store i hnu
    exact update_submission_not_ok h2.1 s2 x
  · intro s tid hc hfresh ops r f s2 x
    obtain ⟨sub, hs, hsid, htid, hmark⟩ := create_submission_shape hc
    subst hs
    subst htid
    have hnu : never_updatable { store with
        tips := store.tips ++ [sub]
        next_tip_id := store.next_tip_id + 1 } store.next_tip_id := by
      constructor
      · intro t ht hti
        rcases List.mem_append.mp ht with hin | hin
        · exact absurd hti (Nat.ne_of_lt (hfresh t hin))
        · have hts : t = sub := by simpa using hin
          subst hts
          rw [hmark]
          decide
      · exact Nat.lt_succ_self _
    have h2 := never_updatable_ops now ops _ store.next_tip_id hnu
    exact update_submission_not_ok h2.1 s2 x
  · exact ⟨_, _, _, _, rfl, rfl⟩

/-- C10 witness: the concluded error observed on a concrete finalized
tip, and a finalize=true creation followed by a successful update. -/
theorem C10_mark_logic_witness :
    update_submission fixture_concluded_store 0 fixture_req true =
      .error .submissionConcluded ∧
    (∃ (st1 : Store) (tid1 : Nat) (st2 : Store) (x : Nat),
      create_submission 0 fixture_store fixture_req true = .ok (st1, tid1) ∧
      update_submission st1 tid1 fixture_req true = .ok (st2, x)) := by
  constructor
  · exact (C10_mark_logic 0 fixture_concluded_store fixture_req).2.1 0
      fixture_req true _ rfl (by decide)
  · exact (C10_mark_logic 0 fixture_store fixture_req).2.2.2.2

end Submission
